import Mathlib

/-!
Shallow embedding of the `vcfiterator` package (files `vcfiterator/util.py`,
`vcfiterator/processors.py`, `vcfiterator/main.py`) and proofs about it.

The Python code is Python 2.  Strings are modelled by `String`, Python's
heterogeneous runtime values by the inductive type `Obj`, dictionaries by
association lists in insertion order (Python dict semantics relevant here:
assignment to an existing key keeps its position, a new key is appended;
lookups on missing keys raise `KeyError`), and raisable exceptions by
`Except PyErr`.
-/

set_option maxRecDepth 10000

namespace VCF

/-- Python exceptions that the embedded code can raise. -/
inductive PyErr where
  | keyError
  | typeError
  | valueError
  | attributeError
  | indexError
  | nameError
  | runtimeError (msg : String)
deriving DecidableEq, Repr

/-- Python runtime values as produced by the decoder: `None`, booleans,
integers, floats (kept as their normalized literal text, since no claim
compares float values numerically), strings, lists and string-keyed dicts. -/
inductive Obj where
  | none
  | b (v : Bool)
  | i (v : Int)
  | f (lit : String)
  | s (v : String)
  | list (l : List Obj)
  | dict (d : List (String × Obj))

/-! ## Dictionaries as association lists -/

/-- First-match lookup, `d[k]` read side. -/
def dictGet? {α : Type} (d : List (String × α)) (k : String) : Option α :=
  match d with
  | [] => Option.none
  | (k', v) :: rest => if k' = k then some v else dictGet? rest k

/-- Model of `d[k] = v`: replace the (unique) occurrence in place if the key is
present, else append at the end — Python dict assignment semantics. -/
def dictSet {α : Type} : List (String × α) → String → α → List (String × α)
  | [], k, v => [(k, v)]
  | (k', v') :: rest, k, v =>
    if k' = k then (k, v) :: rest else (k', v') :: dictSet rest k v

/-- Model of `defaultdict(list)` append: `meta[key].append(value)`. -/
def dictAppend {α : Type} (d : List (String × List α)) (k : String) (v : α) :
    List (String × List α) :=
  dictSet d k ((dictGet? d k).getD [] ++ [v])

/-- Model of `d.pop(k)`: value plus the dict without the key; `KeyError` when absent. -/
def dictPop {α : Type} (d : List (String × α)) (k : String) :
    Except PyErr (α × List (String × α)) :=
  match dictGet? d k with
  | Option.none => .error .keyError
  | some v => .ok (v, d.filter (fun p => ¬ p.1 = k))

/-- Model of `del d[k]`: `KeyError` when absent. -/
def dictDel {α : Type} (d : List (String × α)) (k : String) :
    Except PyErr (List (String × α)) :=
  match dictGet? d k with
  | Option.none => .error .keyError
  | some _ => .ok (d.filter (fun p => ¬ p.1 = k))

/-! ## Python string primitives

All string functions are implemented over `List Char` with structural (or
fuel-bounded, fuel ≥ length) recursion so that concrete runs reduce in the
kernel. -/

/-- One piece collector for `str.split(sep)`, nonempty `sep`; `acc` is the
current piece reversed.  The fuel is always called with `≥ length + 1`. -/
def splitChAux (sep : List Char) : Nat → List Char → List Char → List (List Char)
  | 0, s, acc => [acc.reverse ++ s]
  | _ + 1, [], acc => [acc.reverse]
  | fuel + 1, c :: rest, acc =>
    if sep.isPrefixOf (c :: rest) then
      acc.reverse :: splitChAux sep fuel (List.drop sep.length (c :: rest)) []
    else
      splitChAux sep fuel rest (c :: acc)

/-- Python `s.split(sep)` for a nonempty separator: keeps empty pieces,
`"".split(sep) == [""]`. -/
def pySplit (s sep : String) : List String :=
  (splitChAux sep.toList (s.toList.length + 1) s.toList []).map String.mk

/-- Python `s.split(sep, maxsplit)`: a negative `maxsplit` means no limit. -/
def pySplitMax (s sep : String) (maxsplit : Int) : List String :=
  let parts := pySplit s sep
  if maxsplit < 0 then parts
  else if parts.length ≤ maxsplit.toNat + 1 then parts
  else parts.take maxsplit.toNat ++
    [String.intercalate sep (parts.drop maxsplit.toNat)]

/-- Scanner for `str.replace(old, new)`, nonempty `old`. -/
def replaceChAux (old new : List Char) : Nat → List Char → List Char
  | 0, s => s
  | _ + 1, [] => []
  | fuel + 1, c :: rest =>
    if old.isPrefixOf (c :: rest) then
      new ++ replaceChAux old new fuel (List.drop old.length (c :: rest))
    else c :: replaceChAux old new fuel rest

/-- Python `s.replace(old, new)` for nonempty `old`: replaces every
(non-overlapping, leftmost-first) occurrence. -/
def pyReplace (s old new : String) : String :=
  String.mk (replaceChAux old.toList new.toList (s.toList.length + 1) s.toList)

/-- Python `s.startswith(p)`. -/
def pyStartsWith (s p : String) : Bool :=
  p.toList.isPrefixOf s.toList

/-- Substring scan used for Python `sub in s` (nonempty `sub`). -/
def containsCh (pat : List Char) : List Char → Bool
  | [] => pat.isEmpty
  | c :: rest => pat.isPrefixOf (c :: rest) || containsCh pat rest

/-- Python `sub in s`. -/
def pyContains (s sub : String) : Bool :=
  containsCh sub.toList s.toList

/-- Python `s[n:]`. -/
def strDrop (s : String) (n : Nat) : String :=
  String.mk (s.toList.drop n)

/-- Python whitespace for `str.strip()` / numeric-literal stripping. -/
def isPySpace (c : Char) : Bool :=
  c = ' ' || c = '\t' || c = '\n' || c = '\r' || c = '\x0b' || c = '\x0c'

/-- Python `s.strip()`. -/
def pyStrip (s : String) : String :=
  String.mk (((s.toList.dropWhile isPySpace).reverse.dropWhile isPySpace).reverse)

/-- Value of a nonempty digit run. -/
def digitsVal (l : List Char) : Nat :=
  l.foldl (fun a c => a * 10 + (c.toNat - 48)) 0

/-- Python 2 `int(s)` on a string: optional surrounding whitespace, optional
sign, then a nonempty digit run; `none` models `ValueError`. -/
def pyIntParse (s : String) : Option Int :=
  match (pyStrip s).toList with
  | [] => Option.none
  | c :: r =>
    let sign : Int := if c = '-' then -1 else 1
    let ds : List Char := if c = '+' || c = '-' then r else c :: r
    if ds ≠ [] ∧ ds.all Char.isDigit then some (sign * (digitsVal ds : Int))
    else Option.none

/-- Drop one leading `+`/`-`. -/
def dropSign : List Char → List Char
  | [] => []
  | c :: r => if c = '+' || c = '-' then r else c :: r

/-- Acceptance test for Python `float(s)` on the sign-stripped body:
`d+ (. d*)? | . d+`, optional `e/E` exponent with signed nonempty digits,
or the case-insensitive specials `inf`/`infinity`/`nan`. -/
def isFloatBody (t : List Char) : Bool :=
  let lower := t.map Char.toLower
  if lower = "inf".toList || lower = "infinity".toList || lower = "nan".toList then
    true
  else
    let ds1 := t.takeWhile Char.isDigit
    let r1 := t.dropWhile Char.isDigit
    let step : Bool × List Char :=
      match r1 with
      | '.' :: r =>
        (!ds1.isEmpty || !(r.takeWhile Char.isDigit).isEmpty,
          r.dropWhile Char.isDigit)
      | _ => (!ds1.isEmpty, r1)
    step.1 &&
      (match step.2 with
       | [] => true
       | e :: r =>
         (e = 'e' || e = 'E') &&
           (let r' := dropSign r
            !r'.isEmpty && r'.all Char.isDigit))

/-- Python `float(s)` succeeds (after whitespace stripping). -/
def isFloatLit (s : String) : Bool :=
  isFloatBody (dropSign (pyStrip s).toList)

/-- Every-other-element slice `l[0::2]`. -/
def evens {α : Type} : List α → List α
  | [] => []
  | [a] => [a]
  | a :: _ :: r => a :: evens r

/-- Every-other-element slice `l[1::2]`. -/
def odds {α : Type} : List α → List α
  | [] => []
  | [_] => []
  | _ :: b :: r => b :: odds r

/-! ## Effectful list combinators (left-to-right, first raise wins) -/

/-- Model of `[f a for a in l]` when `f` can raise. -/
def mapME {α β : Type} (f : α → Except PyErr β) : List α → Except PyErr (List β)
  | [] => .ok []
  | a :: l => do
    let b ← f a
    let bs ← mapME f l
    pure (b :: bs)

/-- Model of `[a for a in l if p a]` when the test can raise. -/
def filterME {α : Type} (p : α → Except PyErr Bool) : List α → Except PyErr (List α)
  | [] => .ok []
  | a :: l => do
    let keep ← p a
    let rest ← filterME p l
    pure (if keep then a :: rest else rest)

/-! ## `vcfiterator/util.py` -/

/-- Model of `Util.dot_to_none`: short-circuit the literal `"."` to `None` without
calling the wrapped converter. -/
def dotToNone (f : String → Except PyErr Obj) (val : String) : Except PyErr Obj :=
  if val = "." then .ok .none else f val

/-- Model of `int(x)` as a converter (raises `ValueError` on failure). -/
def pyIntConv (s : String) : Except PyErr Obj :=
  match pyIntParse s with
  | some n => .ok (.i n)
  | Option.none => .error .valueError

/-- Model of `float(x)` as a converter (raises `ValueError` on failure). -/
def pyFloatConv (s : String) : Except PyErr Obj :=
  if isFloatLit s then .ok (.f (pyStrip s)) else .error .valueError

/-- Model of `bool(x)` on a string: `False` exactly for the empty string. -/
def pyBoolConv (s : String) : Except PyErr Obj :=
  .ok (.b (s != ""))

/-- Model of `lambda x: x.decode('latin-1', 'replace')`: text-level identity. -/
def pyStrConv (s : String) : Except PyErr Obj :=
  .ok (.s s)

/-- Model of `Util.conv_to_number`: try `int`, then `float`, else return the string
unchanged.  Never fails. -/
def convToNumber (s : String) : Obj :=
  match pyIntParse s with
  | some n => .i n
  | Option.none => if isFloatLit s then .f (pyStrip s) else .s s

/-- Model of `Util.split_and_convert(conv_func, split_max, extract_single)` for a
converter that can raise. -/
def splitAndConvertE (conv : String → Except PyErr Obj) (splitMax : Int)
    (extractSingle : Bool) (x : String) : Except PyErr Obj := do
  let l ← mapME conv (pySplitMax x "," splitMax)
  match l, extractSingle with
  | [v], true => pure v
  | _, _ => pure (.list l)

/-- Model of `Util.split_and_convert(Util.conv_to_number, extract_single=True)` as used
for sample fields: `conv_to_number` never raises, so this closure is total. -/
def convToNumberExtract (x : String) : Obj :=
  match (pySplitMax x "," (-1)).map convToNumber with
  | [v] => v
  | l => .list l

/-! ## `HeaderParser._parseMetaInfo`: the meta-line regex

`RE_INFO = re.compile(r'[<]*(.*?)=["]*(.*?)["]*[,>]')`, used with
`re.findall`.  The simulation below reproduces the backtracking search of
that pattern: group 1 grows lazily to successive `=` signs, the first
quote-run after `=` is consumed greedily, and group 2 grows lazily until a
(greedy) quote-run followed by `,` or `>`. -/

/-- Length of the leading run of `"` characters. -/
def quoteRun (l : List Char) : Nat :=
  (l.takeWhile (fun c => c = '"')).length

/-- Lazy search for group 2: find the first position whose greedy quote-run is
followed by `,` or `>`.  Returns group 2 and the rest after the delimiter. -/
def kSearch : Nat → List Char → List Char → Option (List Char × List Char)
  | 0, _, _ => Option.none
  | _ + 1, [], _ => Option.none
  | fuel + 1, c :: rest, acc =>
    match List.drop (quoteRun (c :: rest)) (c :: rest) with
    | d :: after =>
      if d = ',' || d = '>' then some (acc.reverse, after)
      else kSearch fuel rest (c :: acc)
    | [] => kSearch fuel rest (c :: acc)

/-- Lazy search for group 1: try each successive `=`; on failure of the rest of
the pattern, group 1 absorbs the `=` and the search continues. -/
def eqSearch : Nat → List Char → List Char → Option (List Char × List Char × List Char)
  | 0, _, _ => Option.none
  | _ + 1, _, [] => Option.none
  | fuel + 1, acc, c :: rest =>
    if c = '=' then
      let q := List.drop (quoteRun rest) rest
      match kSearch (q.length + 1) q [] with
      | some (g2, after) => some (acc.reverse, g2, after)
      | Option.none => eqSearch fuel ('=' :: acc) rest
    else eqSearch fuel (c :: acc) rest

/-- One regex match attempt at the current position: skip leading `<`s, then
search for the first completable `=`. -/
def tryAt (s : List Char) : Option (List Char × List Char × List Char) :=
  let s1 := s.dropWhile (fun c => c = '<')
  eqSearch (s1.length + 1) [] s1

/-- Model of `re.findall`: leftmost non-overlapping matches. -/
def findallAux : Nat → List Char → List (List Char × List Char)
  | 0, _ => []
  | _ + 1, [] => []
  | fuel + 1, c :: rest =>
    match tryAt (c :: rest) with
    | some (g1, g2, after) => (g1, g2) :: findallAux fuel after
    | Option.none => findallAux fuel rest

/-- Model of `HeaderParser._parseMetaInfo`: `{k: v for k, v in groups}`. -/
def parseMetaInfo (infoline : String) : List (String × String) :=
  (findallAux (infoline.toList.length + 1) infoline.toList).foldl
    (fun d p => dictSet d (String.mk p.1) (String.mk p.2)) []

/-! ## `HeaderParser._parseHeader` -/

/-- One parsed meta declaration: raw text, or the key/value mapping produced
by `_parseMetaInfo` for the INFO/FILTER/FORMAT categories. -/
inductive MetaItem where
  | raw (s : String)
  | parsed (kv : List (String × String))
deriving DecidableEq, Repr

/-- A meta category after the singleton-collapse step: `[val] -> val`. -/
inductive MetaEntry where
  | single (v : MetaItem)
  | many (vs : List MetaItem)
deriving DecidableEq, Repr

abbrev HeaderMeta := List (String × MetaEntry)

/-- Model of `SPEC_FIELDS` from `main.py`. -/
def SPEC_FIELDS : List String :=
  ["CHROM", "POS", "ID", "REF", "ALT", "QUAL", "FILTER", "INFO", "FORMAT"]

/-- The line loop of `_parseHeader`: `##` lines append `(key, value)` split on
the first `=` (`ValueError` when there is none, from tuple unpacking), a `#`
line replaces the column list by the tab-split of the line with every `#`
removed, and the first other line ends the loop.  Note there is no `break`
after a `#` line. -/
def headerLoop : List String → List (String × List String) → List String →
    Except PyErr (List (String × List String) × List String)
  | [], m, h => .ok (m, h)
  | l :: rest, m, h =>
    let c := pyReplace l "\n" ""
    if pyStartsWith c "##" then
      match pySplitMax (strDrop c 2) "=" 1 with
      | [k, v] => headerLoop rest (dictAppend m k v) h
      | _ => .error .valueError
    else if pyStartsWith c "#" then
      headerLoop rest m (pySplit (pyReplace c "#" "") "\t")
    else .ok (m, h)

/-- Per-category parse step: INFO/FILTER/FORMAT values go through
`_parseMetaInfo`, other categories stay raw. -/
def metaItemFor (k : String) (v : String) : MetaItem :=
  if k = "INFO" ∨ k = "FILTER" ∨ k = "FORMAT" then .parsed (parseMetaInfo v)
  else .raw v

/-- The `[val] -> val` collapse of `_parseHeader`. -/
def mkMetaEntry : List MetaItem → MetaEntry
  | [v] => .single v
  | vs => .many vs

/-- Post-processing of the accumulated meta dict: apply the category
processors, then collapse single-item lists. -/
def processedMeta (raw : List (String × List String)) : HeaderMeta :=
  raw.map (fun p => (p.1, mkMetaEntry (p.2.map (metaItemFor p.1))))

/-- Model of `HeaderParser._getSamples`. -/
def getSamples (header : List String) : List String :=
  header.filter (fun f => ¬ f ∈ SPEC_FIELDS)

/-- Model of `HeaderParser.parse` over the file's lines: returns
`(meta, header, samples)`. -/
def parseHeader (lines : List String) :
    Except PyErr (HeaderMeta × List String × List String) := do
  let (m, h) ← headerLoop lines [] []
  pure (processedMeta m, h, getSamples h)

/-! ## `BaseInfoProcessor.getConvertFunction` -/

/-- Scan of the generator `(m for m in meta['INFO'] if m['ID'] == key)` over a
list-valued `meta['INFO']`: a raw-string element makes `m['ID']` raise
`TypeError`; a mapping without `'ID'` raises `KeyError`. -/
def metaInfoScan : List MetaItem → String → Except PyErr (Option (List (String × String)))
  | [], _ => .ok Option.none
  | .raw _ :: _, _ => .error .typeError
  | .parsed kv :: rest, key =>
    match dictGet? kv "ID" with
    | Option.none => .error .keyError
    | some idv => if idv = key then .ok (some kv) else metaInfoScan rest key

/-- Model of `next((m for m in meta['INFO'] if m['ID'] == key), None)`.  `meta` is a
`defaultdict(list)`, so a missing `'INFO'` reads as the empty list.  When
exactly one INFO line was declared, the singleton collapse has replaced the
list by its bare element; iterating that dict (or string) yields strings `m`,
and `m['ID']` raises `TypeError` — except on an empty dict/string, where the
generator is immediately exhausted. -/
def metaInfoFind (meta : HeaderMeta) (key : String) :
    Except PyErr (Option (List (String × String))) :=
  match dictGet? meta "INFO" with
  | Option.none => .ok Option.none
  | some (.many vs) => metaInfoScan vs key
  | some (.single (.parsed kv)) =>
    if kv.isEmpty then .ok Option.none else .error .typeError
  | some (.single (.raw s)) =>
    if s = "" then .ok Option.none else .error .typeError

/-- Model of `BaseInfoProcessor.getConvertFunction(meta, key)`: build the converter
from the declared `(Type, Number)`; fall back to the latin-1 decode (plain
string) when the key is undeclared. -/
def getConvertFunction (meta : HeaderMeta) (key : String) :
    Except PyErr (String → Except PyErr Obj) := do
  let fOpt ← metaInfoFind meta key
  match fOpt with
  | Option.none => pure pyStrConv
  | some f =>
    match dictGet? f "Type" with
    | Option.none => .error .keyError
    | some ty =>
      let parseFunc : String → Except PyErr Obj :=
        if ty = "Integer" then dotToNone pyIntConv
        else if ty = "Number" ∨ ty = "Double" ∨ ty = "Float" then
          dotToNone pyFloatConv
        else if ty = "Flag" then dotToNone pyBoolConv
        else dotToNone pyStrConv
      match dictGet? f "Number" with
      | Option.none => .error .keyError
      | some number =>
        match pyIntParse number with
        | some n => pure (splitAndConvertE parseFunc n true)
        | Option.none =>
          if number = "A" then pure (splitAndConvertE parseFunc (-1) false)
          else if ty = "Integer" then pure (splitAndConvertE parseFunc (-1) true)
          else pure parseFunc

/-! ## INFO data structures -/

abbrev Bucket := List (String × Obj)
abbrev InfoData := List (String × Bucket)

/-- Model of `{k: dict() for k in alleles}` plus `info_data['ALL'] = dict()` from
`DataParser._parseDataInfoField`. -/
def mkInfoData (alleles : List String) : InfoData :=
  dictSet (alleles.foldl (fun d a => dictSet d a []) []) "ALL" []

/-- Model of `info_data[a][k] = v`: `KeyError` when the bucket `a` does not exist. -/
def dictSetIn (d : InfoData) (a k : String) (v : Obj) : Except PyErr InfoData :=
  match dictGet? d a with
  | Option.none => .error .keyError
  | some b => .ok (dictSet d a (dictSet b k v))

/-- An INFO token's value: the string after `=`, or Python `True` for a bare
flag token. -/
inductive InfoVal where
  | str (s : String)
  | flagTrue
deriving DecidableEq, Repr

/-- Model of `NativeInfoProcessor.process`: a boolean value (bare flag) is stored
verbatim under `'ALL'`; otherwise the metadata-driven converter is applied and
the result is stored under `'ALL'`. -/
def nativeProcess (meta : HeaderMeta) (key : String) (value : InfoVal)
    (d : InfoData) (_alleles : List String) : Except PyErr InfoData :=
  match value with
  | .flagTrue => dictSetIn d "ALL" key (.b true)
  | .str s => do
    let func ← getConvertFunction meta key
    let v ← func s
    dictSetIn d "ALL" key v

/-- Model of `for a_idx, allele in enumerate(alleles): info_data[allele][key] = g(a_idx)`
where computing the per-allele value may itself raise. -/
def alleleWriteLoop (key : String) (g : Nat → Except PyErr Obj) :
    Nat → List String → InfoData → Except PyErr InfoData
  | _, [], d => .ok d
  | i, a :: rest, d => do
    let v ← g i
    let d' ← dictSetIn d a key v
    alleleWriteLoop key g (i + 1) rest d'

/-! ## `CsvAlleleParser` -/

/-- Model of `CsvAlleleParser.fields`. -/
def csvAlleleFields : List String := ["AC", "AF", "MLEAC", "MLEAF"]

/-- Model of `CsvAlleleParser.process`: comma-split, require one value per ALT allele
(`RuntimeError` otherwise), then store the number-coerced element at each
allele's slot.  A bare-flag value has no `.split` (`AttributeError`). -/
def csvAlleleProcess (key : String) (value : InfoVal) (d : InfoData)
    (alleles : List String) : Except PyErr InfoData :=
  match value with
  | .flagTrue => .error .attributeError
  | .str s =>
    let alleleValues := pySplit s ","
    if ¬ alleleValues.length = alleles.length then
      .error (.runtimeError
        ("Number of allele values for " ++ key ++ " not matching number of alleles"))
    else
      alleleWriteLoop key
        (fun i =>
          match alleleValues.get? i with
          | some av => .ok (convToNumber av)
          | Option.none => .error .indexError)
        0 alleles d

/-! ## `VEPInfoProcessor` -/

/-- The nine `*_MAF` sub-fields converted by `_parseMAF`. -/
def mafKeys : List String :=
  ["AA_MAF", "AFR_MAF", "AMR_MAF", "ASN_MAF", "EA_MAF", "EUR_MAF",
   "EAS_MAF", "SAS_MAF", "GMAF"]

/-- Model of `VEPInfoProcessor._parseMAF`: `&`-separated entries, each a `:`-separated
key/value interleaving; values that fail `float()` are skipped. -/
def parseMAF (val : String) : Obj :=
  .dict ((pySplit val "&").foldl
    (fun maf allele =>
      let v := pySplit allele ":"
      (List.zip (evens v) (odds v)).foldl
        (fun maf kv =>
          if isFloatLit kv.2 then dictSet maf kv.1 (.f (pyStrip kv.2)) else maf)
        maf)
    [])

/-- The `VEPInfoProcessor.converters` table (default: latin-1 decode). -/
def vepConvert (k v : String) : Except PyErr Obj :=
  if k = "ALLELE_NUM" ∨ k = "DISTANCE" ∨ k = "STRAND" then pyIntConv v
  else if k = "PUBMED" then do
    let ns ← mapME pyIntConv (pySplit v "&")
    pure (.list ns)
  else if k = "Consequence" ∨ k = "Existing_variation" then
    .ok (.list ((pySplit v "&").map .s))
  else if k ∈ mafKeys then .ok (parseMAF v)
  else pyStrConv v

/-- Model of `{k: conv(k)(v) for k, v in zip(fields, pieces) if v is not ''}`: the
sub-record dict comprehension shared by the two annotation processors. -/
def buildAnnoRec (convert : String → String → Except PyErr Obj)
    (fields pieces : List String) : Except PyErr Bucket :=
  (List.zip fields pieces).foldlM
    (fun b kv => do
      if kv.2 = "" then pure b
      else do
        let v ← convert kv.1 kv.2
        pure (dictSet b kv.1 v))
    []

/-- The `all_data` list built by `VEPInfoProcessor.process`: one sub-record
per comma-separated transcript, pieces split on `|`.  `fields` is
`self.fields`, extracted once from the header's CSQ `Description` at
construction time. -/
def vepAllData (fields : List String) (value : String) : Except PyErr (List Obj) :=
  mapME (fun t => do
    let b ← buildAnnoRec vepConvert fields (pySplit t "|")
    pure (Obj.dict b))
    (pySplit value ",")

/-- Model of `d['ALLELE_NUM'] - 1 == a_idx` on a sub-record (`KeyError` when the field
is absent, `TypeError` when it is not a number). -/
def annoIndexMatch (numKey : String) (r : Obj) (aIdx : Nat) : Except PyErr Bool :=
  match r with
  | .dict b =>
    match dictGet? b numKey with
    | Option.none => .error .keyError
    | some (.i n) => .ok (n - 1 = (aIdx : Int))
    | some _ => .error .typeError
  | _ => .error .typeError

/-- Model of `VEPInfoProcessor.process`: with exactly one ALT allele all sub-records go
to it; otherwise each allele gets the sub-records whose 1-based
`ALLELE_NUM` minus one equals its position. -/
def vepProcess (fields : List String) (key : String) (value : InfoVal)
    (d : InfoData) (alleles : List String) : Except PyErr InfoData :=
  match value with
  | .flagTrue => .error .attributeError
  | .str s => do
    let allData ← vepAllData fields s
    match alleles with
    | [a] => dictSetIn d a key (.list allData)
    | _ =>
      alleleWriteLoop key
        (fun i => do
          let flt ← filterME (fun r => annoIndexMatch "ALLELE_NUM" r i) allData
          pure (.list flt))
        0 alleles d

/-! ## `SnpEffInfoProcessor` -/

/-- Model of `SnpEffInfoProcessor._parseFormat`: punctuation normalization, `|`-split,
and per-piece strip. -/
def snpEffParseFormat (line : String) : List String :=
  (pySplit
    (pyReplace (pyReplace (pyReplace (pyReplace line "(" "|") ")" "")
      "[ | ERRORS | WARNINGS ]" "") "'" "")
    "|").map pyStrip

/-- The `SnpEffInfoProcessor.converters` table. -/
def snpEffConvert (k v : String) : Except PyErr Obj :=
  if k = "Genotype_Number" ∨ k = "Exon_Rank" ∨ k = "Amino_Acid_length" then
    pyIntConv v
  else pyStrConv v

/-- The `all_data` list built by `SnpEffInfoProcessor.process`: one sub-record
per comma-separated transcript, pieces from `_parseFormat`. -/
def snpEffAllData (fields : List String) (value : String) :
    Except PyErr (List Obj) :=
  mapME (fun t => do
    let b ← buildAnnoRec snpEffConvert fields (snpEffParseFormat t)
    pure (Obj.dict b))
    (pySplit value ",")

/-- Model of `SnpEffInfoProcessor.process`: every allele (no single-allele special
case) gets the sub-records whose 1-based `Genotype_Number` minus one equals
its position. -/
def snpEffProcess (fields : List String) (key : String) (value : InfoVal)
    (d : InfoData) (alleles : List String) : Except PyErr InfoData :=
  match value with
  | .flagTrue => .error .attributeError
  | .str s => do
    let allData ← snpEffAllData fields s
    alleleWriteLoop key
      (fun i => do
        let flt ← filterME (fun r => annoIndexMatch "Genotype_Number" r i) allData
        pure (.list flt))
      0 alleles d

/-! ## The processor chain (`DataParser._parseDataInfoField`) -/

/-- The built-in chain processors.  The VEP/snpEff field lists stand for
`self.fields`, computed at processor construction from the header. -/
inductive Processor where
  | csvAllele
  | vep (fields : List String)
  | snpEff (fields : List String)
deriving DecidableEq, Repr

/-- Model of `accepts(key, value, processed)` for each built-in processor.  All three
ignore `value` and `processed`. -/
def procAccepts (p : Processor) (key : String) (_value : InfoVal)
    (_processed : Bool) : Bool :=
  match p with
  | .csvAllele => key ∈ csvAlleleFields
  | .vep _ => key = "CSQ"
  | .snpEff _ => key = "EFF"

/-- Model of `process(key, value, info_data, alleles, processed)` dispatch (the
`processed` argument is unused by every built-in processor). -/
def procProcess (p : Processor) (key : String) (value : InfoVal)
    (d : InfoData) (alleles : List String) : Except PyErr InfoData :=
  match p with
  | .csvAllele => csvAlleleProcess key value d alleles
  | .vep fields => vepProcess fields key value d alleles
  | .snpEff fields => snpEffProcess fields key value d alleles

/-- The `for processor in self.infoProcessors` loop with the `processed`
flag. -/
def chainLoop (key : String) (value : InfoVal) (alleles : List String) :
    List Processor → InfoData → Bool → Except PyErr (InfoData × Bool)
  | [], d, processed => .ok (d, processed)
  | p :: rest, d, processed =>
    if procAccepts p key value processed then do
      let d' ← procProcess p key value d alleles
      chainLoop key value alleles rest d' true
    else chainLoop key value alleles rest d processed

/-- Model of `key, value = f.split('=', 1)` when `=` is present, else `(f, True)`. -/
def splitInfoToken (f : String) : String × InfoVal :=
  if pyContains f "=" then
    match pySplitMax f "=" 1 with
    | k :: v :: _ => (k, .str v)
    | _ => (f, .flagTrue)
  else (f, .flagTrue)

/-- Dispatch of one INFO token: run the chain, then the fallback
`NativeInfoProcessor` when no chain processor accepted it. -/
def chainStep (procs : List Processor) (meta : HeaderMeta)
    (alleles : List String) (d : InfoData) (tok : String) :
    Except PyErr InfoData := do
  let kv := splitInfoToken tok
  let (d', processed) ← chainLoop kv.1 kv.2 alleles procs d false
  if processed then pure d' else nativeProcess meta kv.1 kv.2 d' alleles

/-- The `for f in fields` token loop of `_parseDataInfoField`. -/
def infoFieldsLoop (procs : List Processor) (meta : HeaderMeta)
    (alleles : List String) : List String → InfoData → Except PyErr InfoData
  | [], d => .ok d
  | t :: rest, d => do
    let d₁ ← chainStep procs meta alleles d t
    infoFieldsLoop procs meta alleles rest d₁

/-- Model of `DataParser._parseDataInfoField`, on the already-split ALT allele list and
the raw INFO column text. -/
def processInfoFields (procs : List Processor) (meta : HeaderMeta)
    (alleles : List String) (infoStr : String) : Except PyErr InfoData :=
  infoFieldsLoop procs meta alleles (pySplit infoStr ";") (mkInfoData alleles)

/-! ## `DataParser._parseDataSampleFields` and `_parseData` -/

/-- A decoded record: the per-line field dict. -/
abbrev Rec := List (String × Obj)

/-- Model of `{k: extract(v) for k, v in zip(sample_format, sample_text.split(':'))}` —
the positional zip silently truncates to the shorter list. -/
def buildSampleMap (keys : List String) (text : String) : Bucket :=
  (List.zip keys (pySplit text ":")).foldl
    (fun b kv => dictSet b kv.1 (convToNumberExtract kv.2)) []

/-- The `for sample_name in self.samples` loop: pop each raw sample column
from the record (`KeyError` when absent) and build its decoded map. -/
def sampleLoop (keys : List String) :
    List String → Rec → List (String × Obj) → Except PyErr (List (String × Obj) × Rec)
  | [], data, sd => .ok (sd, data)
  | nm :: rest, data, sd => do
    let (txt, data') ← dictPop data nm
    match txt with
    | .s text => sampleLoop keys rest data' (dictSet sd nm (.dict (buildSampleMap keys text)))
    | _ => .error .attributeError

/-- Model of `DataParser._parseDataSampleFields`: no-op without a `FORMAT` column;
otherwise decode each sample column against the colon-split FORMAT keys,
store the result under `SAMPLES` and delete `FORMAT`. -/
def parseDataSampleFields (samples : List String) (data : Rec) :
    Except PyErr Rec :=
  match dictGet? data "FORMAT" with
  | Option.none => .ok data
  | some (.s fmt) => do
    let keys := pySplit fmt ":"
    let (sd, data') ← sampleLoop keys samples data []
    let data'' := dictSet data' "SAMPLES" (.dict sd)
    dictDel data'' "FORMAT"
  | some _ => .error .attributeError

/-- Read a record field that must currently hold raw column text. -/
def getStrField (data : Rec) (k : String) : Except PyErr String :=
  match dictGet? data k with
  | Option.none => .error .keyError
  | some (.s s) => .ok s
  | some _ => .error .typeError

/-- Model of `DataParser._parseData`: zip the header columns against the tab-split
line, split `ALT` on `,`, run the INFO chain, decode the sample columns, and
number-coerce `POS` and `QUAL`. -/
def parseData (procs : List Processor) (meta : HeaderMeta)
    (header : List String) (samples : List String) (line : String) :
    Except PyErr Rec := do
  let data : Rec :=
    (List.zip header (pySplit line "\t")).foldl
      (fun d kv => dictSet d kv.1 (.s kv.2)) []
  let altStr ← getStrField data "ALT"
  let alleles := pySplit altStr ","
  let data := dictSet data "ALT" (.list (alleles.map .s))
  let infoStr ← getStrField data "INFO"
  let info ← processInfoFields procs meta alleles infoStr
  let data := dictSet data "INFO" (.dict (info.map (fun p => (p.1, Obj.dict p.2))))
  let data ← parseDataSampleFields samples data
  let pos ← getStrField data "POS"
  let data := dictSet data "POS" (convToNumber pos)
  let qual ← getStrField data "QUAL"
  pure (dictSet data "QUAL" (convToNumber qual))

/-! ## `DataParser.iter` and the `VcfIterator` pipeline -/

/-- One yielded item (`include_raw` pairs it with the undecoded line). -/
inductive YieldItem where
  | plain (r : Rec)
  | withRaw (line : String) (r : Rec)

/-- The warning written to `sys.stderr` for a failed line. -/
def iterWarning (idx : Nat) (line : String) : String :=
  "WARNING: Line " ++ toString idx ++ " failed to parse: \n " ++ line

/-- The loop body of `DataParser.iter` over `enumerate(f.xreadlines())`.
State: `foundStart` (`#CHROM` seen), `dataVar` (the Python local `data`,
unbound before the first successful parse — note the missing `continue` in
the `except` branch: after a failed parse the function still executes
`yield data`, re-yielding the stale previous record, or raising `NameError`
when no line has parsed yet).  Returns the yielded items and the stderr
warnings. -/
def dataIterAux (procs : List Processor) (meta : HeaderMeta)
    (header samples : List String) (throwExceptions includeRaw : Bool) :
    List (Nat × String) → Bool → Option Rec → List YieldItem → List String →
    Except PyErr (List YieldItem × List String)
  | [], _, _, ys, ws => .ok (ys.reverse, ws.reverse)
  | (idx, line) :: rest, foundStart, dataVar, ys, ws =>
    if pyStartsWith line "#CHROM" && !foundStart then
      dataIterAux procs meta header samples throwExceptions includeRaw
        rest true dataVar ys ws
    else if !foundStart then
      dataIterAux procs meta header samples throwExceptions includeRaw
        rest false dataVar ys ws
    else
      let cl := pyReplace line "\n" ""
      match parseData procs meta header samples cl with
      | .ok r =>
        dataIterAux procs meta header samples throwExceptions includeRaw
          rest foundStart (some r)
          ((if includeRaw then .withRaw cl r else .plain r) :: ys) ws
      | .error e =>
        if throwExceptions then .error e
        else
          match dataVar with
          | Option.none => .error .nameError
          | some r =>
            dataIterAux procs meta header samples throwExceptions includeRaw
              rest foundStart (some r)
              ((if includeRaw then .withRaw cl r else .plain r) :: ys)
              (iterWarning idx cl :: ws)

/-- Model of `DataParser.iter` over the file's lines. -/
def dataIter (procs : List Processor) (meta : HeaderMeta)
    (header samples : List String) (throwExceptions includeRaw : Bool)
    (lines : List String) : Except PyErr (List YieldItem × List String) :=
  dataIterAux procs meta header samples throwExceptions includeRaw
    lines.enum false Option.none [] []

/-- Model of `VcfIterator` construction plus one `_parseData` call: parse the header
from the file's lines, register the default `CsvAlleleParser`, and decode one
data line. -/
def vcfDecodeLine (lines : List String) (line : String) : Except PyErr Rec := do
  let (meta, header, samples) ← parseHeader lines
  parseData [Processor.csvAllele] meta header samples line

/-! ## Statement-side helper definitions

These are used only to *state* properties of the code above. -/

/-- Model of `info_data[a][k]` as an optional read. -/
def dictGet2? (d : InfoData) (a k : String) : Option Obj :=
  match dictGet? d a with
  | Option.none => Option.none
  | some b => dictGet? b k

/-- Key `k` is present in bucket `a`. -/
def hasKeyB (d : InfoData) (a k : String) : Bool :=
  (dictGet2? d a k).isSome

/-- Some chain processor accepts this key (all built-in `accepts` gates
depend only on the key). -/
def chainAcceptsKey (procs : List Processor) (key : String) : Bool :=
  procs.any (fun p => procAccepts p key (.str "") false)

/-- The dispatch invariant of `_parseDataInfoField`: every key present in the
`'ALL'` bucket is one no chain processor accepts, and every key present in
some allele bucket is chain-accepted and present in *every* allele bucket. -/
def infoInv (procs : List Processor) (alleles : List String) (d : InfoData) : Prop :=
  (∀ K, hasKeyB d "ALL" K = true → chainAcceptsKey procs K = false) ∧
  (∀ K a, a ∈ alleles → hasKeyB d a K = true →
    chainAcceptsKey procs K = true ∧ ∀ a' ∈ alleles, hasKeyB d a' K = true)

/-- The cleaned lines the header loop actually consumes: the longest prefix
of `#`-starting lines (after newline removal). -/
def headerConsumed (lines : List String) : List String :=
  (lines.map (fun l => pyReplace l "\n" "")).takeWhile (fun l => pyStartsWith l "#")

/-- The `(key, value)` pair of one `##` line (split on the first `=`). -/
def metaPairOf (l : String) : Option (String × String) :=
  match pySplitMax (strDrop l 2) "=" 1 with
  | [k, v] => some (k, v)
  | _ => Option.none

/-- The `(key, value)` pairs declared by `##` lines before the first non-`#`
line, in file order. -/
def metaPairsSpec (lines : List String) : List (String × String) :=
  (headerConsumed lines).filterMap
    (fun l => if pyStartsWith l "##" then metaPairOf l else Option.none)

/-- Model of `defaultdict(list)` accumulation of key/value pairs. -/
def groupPairs (ps : List (String × String)) : List (String × List String) :=
  ps.foldl (fun m p => dictAppend m p.1 p.2) []

/-- The values declared for meta category `k`, in file order. -/
def declaredMetaValues (lines : List String) (k : String) : List String :=
  ((metaPairsSpec lines).filter (fun p => p.1 = k)).map (fun p => p.2)

/-- The column-header-shaped lines (single leading `#`) before the first
non-`#` line. -/
def columnLines (lines : List String) : List String :=
  (headerConsumed lines).filter
    (fun l => pyStartsWith l "#" && !(pyStartsWith l "##"))

/-- The column list the header loop ends with: the *last* column-header-shaped
consumed line, with every `#` removed, split on tab (empty when there is
none). -/
def columnsSpec (lines : List String) : List String :=
  match (columnLines lines).getLast? with
  | Option.none => []
  | some l => pySplit (pyReplace l "#" "") "\t"

/-! # Theorems -/

/-! ## Association-list lemmas -/

theorem dictGet?_set_self {α : Type} (d : List (String × α)) (k : String) (v : α) :
    dictGet? (dictSet d k v) k = some v := by
  induction d with
  | nil => simp [dictSet, dictGet?]
  | cons p rest ih =>
    obtain ⟨k', v'⟩ := p
    by_cases h : k' = k
    · simp [dictSet, h, dictGet?]
    · simp [dictSet, h, dictGet?, ih]

theorem dictGet?_set_ne {α : Type} (d : List (String × α)) (k k' : String) (v : α)
    (h : k' ≠ k) : dictGet? (dictSet d k v) k' = dictGet? d k' := by
  induction d with
  | nil => simp [dictSet, dictGet?, Ne.symm h]
  | cons p rest ih =>
    obtain ⟨k₀, v₀⟩ := p
    by_cases h₀ : k₀ = k
    · subst h₀
      simp [dictSet, dictGet?, Ne.symm h]
    · by_cases h₁ : k₀ = k'
      · subst h₁
        simp [dictSet, h, dictGet?]
      · simp [dictSet, h₀, dictGet?, h₁, ih]

/-! ## `dictSetIn` and `alleleWriteLoop` lemmas -/

theorem exc_bind_ok {α β : Type} (a : α) (f : α → Except PyErr β) :
    (Except.ok a >>= f) = f a := rfl

theorem exc_bind_error {α β : Type} (e : PyErr) (f : α → Except PyErr β) :
    ((Except.error e : Except PyErr α) >>= f) = Except.error e := rfl

theorem dictSetIn_get2_self {d d' : InfoData} {a k : String} {v : Obj}
    (h : dictSetIn d a k v = .ok d') : dictGet2? d' a k = some v := by
  unfold dictSetIn at h
  cases hb : dictGet? d a with
  | none => simp [hb] at h
  | some b =>
    simp only [hb] at h
    cases h
    simp [dictGet2?, dictGet?_set_self]

theorem dictSetIn_get2_ne {d d' : InfoData} {a k : String} {v : Obj}
    (h : dictSetIn d a k v = .ok d') (a' k' : String)
    (hne : ¬ (a' = a ∧ k' = k)) : dictGet2? d' a' k' = dictGet2? d a' k' := by
  unfold dictSetIn at h
  cases hb : dictGet? d a with
  | none => simp [hb] at h
  | some b =>
    simp only [hb] at h
    cases h
    by_cases ha : a' = a
    · subst ha
      have hk : k' ≠ k := fun hk => hne ⟨rfl, hk⟩
      simp [dictGet2?, dictGet?_set_self, hb, dictGet?_set_ne _ _ _ _ hk]
    · simp [dictGet2?, dictGet?_set_ne _ _ _ _ ha]

theorem dictSetIn_isSome {d d' : InfoData} {a k : String} {v : Obj}
    (h : dictSetIn d a k v = .ok d') (a' : String)
    (hs : (dictGet? d a').isSome) : (dictGet? d' a').isSome := by
  unfold dictSetIn at h
  cases hb : dictGet? d a with
  | none => simp [hb] at h
  | some b =>
    simp only [hb] at h
    cases h
    by_cases ha : a' = a
    · subst ha
      simp [dictGet?_set_self]
    · rwa [dictGet?_set_ne _ _ _ _ ha]

theorem dictSetIn_ok_of_isSome {d : InfoData} {a : String} (k : String) (v : Obj)
    (hs : (dictGet? d a).isSome) : ∃ d', dictSetIn d a k v = .ok d' := by
  unfold dictSetIn
  cases hb : dictGet? d a with
  | none => simp [hb] at hs
  | some b => exact ⟨_, rfl⟩

theorem alleleWriteLoop_spec (k : String) (g : Nat → Except PyErr Obj) :
    ∀ (l : List String) (i : Nat) (d d' : InfoData),
      alleleWriteLoop k g i l d = .ok d' →
      (∀ a ∈ l, ∃ v, dictGet2? d' a k = some v) ∧
      (∀ a' k', ¬ (k' = k ∧ a' ∈ l) → dictGet2? d' a' k' = dictGet2? d a' k') := by
  intro l
  induction l with
  | nil =>
    intro i d d' h
    cases h
    exact ⟨fun a ha => absurd ha (List.not_mem_nil a), fun _ _ _ => rfl⟩
  | cons a rest ih =>
    intro i d d' h
    simp only [alleleWriteLoop] at h
    cases hg : g i with
    | error e => rw [hg, exc_bind_error] at h; exact Except.noConfusion h
    | ok v =>
      rw [hg, exc_bind_ok] at h
      cases hset : dictSetIn d a k v with
      | error e => rw [hset, exc_bind_error] at h; exact Except.noConfusion h
      | ok d₁ =>
        rw [hset, exc_bind_ok] at h
        obtain ⟨ih1, ih2⟩ := ih (i + 1) d₁ d' h
        constructor
        · intro a' ha'
          rcases List.mem_cons.mp ha' with hEq | hMem
          · subst hEq
            by_cases hm : a' ∈ rest
            · exact ih1 a' hm
            · rw [ih2 a' k (fun hc => hm hc.2)]
              exact ⟨v, dictSetIn_get2_self hset⟩
          · exact ih1 a' hMem
        · intro a' k' hne
          have h1 : ¬ (k' = k ∧ a' ∈ rest) := fun hc =>
            hne ⟨hc.1, List.mem_cons_of_mem a hc.2⟩
          have h2 : ¬ (a' = a ∧ k' = k) := fun hc =>
            hne ⟨hc.2, hc.1 ▸ List.mem_cons_self a rest⟩
          rw [ih2 a' k' h1, dictSetIn_get2_ne hset a' k' h2]

theorem alleleWriteLoop_values (k : String) (g : Nat → Except PyErr Obj) :
    ∀ (l : List String) (i : Nat) (d d' : InfoData),
      alleleWriteLoop k g i l d = .ok d' → l.Nodup →
      ∀ j (hj : j < l.length),
        ∃ v, g (i + j) = .ok v ∧ dictGet2? d' (l.get ⟨j, hj⟩) k = some v := by
  intro l
  induction l with
  | nil => intro i d d' _ _ j hj; exact absurd hj (by simp)
  | cons a rest ih =>
    intro i d d' h hnd j hj
    simp only [alleleWriteLoop] at h
    cases hg : g i with
    | error e => rw [hg, exc_bind_error] at h; exact Except.noConfusion h
    | ok v =>
      rw [hg, exc_bind_ok] at h
      cases hset : dictSetIn d a k v with
      | error e => rw [hset, exc_bind_error] at h; exact Except.noConfusion h
      | ok d₁ =>
        rw [hset, exc_bind_ok] at h
        match j with
        | 0 =>
          refine ⟨v, by simpa using hg, ?_⟩
          have hnm : a ∉ rest := (List.nodup_cons.mp hnd).1
          have := (alleleWriteLoop_spec k g rest (i + 1) d₁ d' h).2 a k
            (fun hc => hnm hc.2)
          simp only [List.get] at *
          rw [this]
          exact dictSetIn_get2_self hset
        | j + 1 =>
          have hj' : j < rest.length := by simpa using hj
          obtain ⟨v', hg', hget⟩ := ih (i + 1) d₁ d' h (List.nodup_cons.mp hnd).2 j hj'
          exact ⟨v', by rw [show i + (j + 1) = i + 1 + j by omega]; exact hg', hget⟩

theorem alleleWriteLoop_ok (k : String) (g : Nat → Except PyErr Obj) :
    ∀ (l : List String) (i : Nat) (d : InfoData),
      (∀ a ∈ l, (dictGet? d a).isSome) →
      (∀ j, j < l.length → ∃ v, g (i + j) = .ok v) →
      ∃ d', alleleWriteLoop k g i l d = .ok d' := by
  intro l
  induction l with
  | nil => intro i d _ _; exact ⟨d, rfl⟩
  | cons a rest ih =>
    intro i d hbuck hg
    obtain ⟨v, hv⟩ := hg 0 (by simp)
    rw [Nat.add_zero] at hv
    obtain ⟨d₁, hd₁⟩ := dictSetIn_ok_of_isSome k v
      (hbuck a (List.mem_cons_self a rest))
    obtain ⟨d', hd'⟩ := ih (i + 1) d₁
      (fun a' ha' => dictSetIn_isSome hd₁ a' (hbuck a' (List.mem_cons_of_mem a ha')))
      (fun j hj => by
        obtain ⟨v', hv'⟩ := hg (j + 1) (by simpa using hj)
        exact ⟨v', by rw [show i + 1 + j = i + (j + 1) by omega]; exact hv'⟩)
    refine ⟨d', ?_⟩
    unfold alleleWriteLoop
    rw [hv, exc_bind_ok, hd₁, exc_bind_ok]
    exact hd'

/-! ## Claim C3 -/

/-- Claim C3: for every INFO key handled by `CsvAlleleParser`
(`AC`/`AF`/`MLEAC`/`MLEAF`), a comma-split value whose element count differs
from the ALT allele count makes the record fail with the count-mismatch
`RuntimeError`; with matching counts, each number-coerced element lands at
the corresponding allele's slot in ALT order.  (`hb` says each allele's
bucket exists, as `_parseDataInfoField` guarantees; `hnd` rules out the
degenerate duplicated-ALT-allele record, where distinct "slots" do not
exist.) -/
theorem c3_csv_allele_count_enforcement (key s : String)
    (alleles : List String) (d : InfoData)
    (_hkey : key ∈ csvAlleleFields)
    (hb : ∀ a ∈ alleles, (dictGet? d a).isSome)
    (hnd : alleles.Nodup) :
    (¬ (pySplit s ",").length = alleles.length →
      csvAlleleProcess key (.str s) d alleles
        = .error (.runtimeError
            ("Number of allele values for " ++ key ++
              " not matching number of alleles"))) ∧
    ((pySplit s ",").length = alleles.length →
      ∃ d', csvAlleleProcess key (.str s) d alleles = .ok d' ∧
        ∀ j (hj : j < alleles.length) (hj' : j < (pySplit s ",").length),
          dictGet2? d' (alleles.get ⟨j, hj⟩) key
            = some (convToNumber ((pySplit s ",").get ⟨j, hj'⟩))) := by
  constructor
  · intro hlen
    simp [csvAlleleProcess, hlen]
  · intro hlen
    have hg : ∀ j, j < alleles.length →
        ∃ v, (fun i =>
          match (pySplit s ",").get? i with
          | some av => Except.ok (convToNumber av)
          | Option.none => Except.error PyErr.indexError) (0 + j) = .ok v := by
      intro j hj
      have hj' : j < (pySplit s ",").length := by omega
      refine ⟨convToNumber ((pySplit s ",").get ⟨j, hj'⟩), ?_⟩
      show (match (pySplit s ",").get? (0 + j) with
        | some av => Except.ok (convToNumber av)
        | Option.none => Except.error PyErr.indexError) = _
      rw [Nat.zero_add, List.get?_eq_get hj']
    obtain ⟨d', hd'⟩ := alleleWriteLoop_ok key
      (fun i =>
        match (pySplit s ",").get? i with
        | some av => Except.ok (convToNumber av)
        | Option.none => Except.error PyErr.indexError) alleles 0 d hb hg
    refine ⟨d', ?_, ?_⟩
    · simp only [csvAlleleProcess, hlen]
      simp only [not_true_eq_false, if_neg, ite_false]
      exact hd'
    · intro j hj hj'
      obtain ⟨v, hv, hget⟩ := alleleWriteLoop_values key
        (fun i =>
          match (pySplit s ",").get? i with
          | some av => Except.ok (convToNumber av)
          | Option.none => Except.error PyErr.indexError) alleles 0 d d' hd' hnd j hj
      rw [hget]
      have hgv : (match (pySplit s ",").get? (0 + j) with
          | some av => Except.ok (convToNumber av)
          | Option.none => Except.error PyErr.indexError)
          = Except.ok (convToNumber ((pySplit s ",").get ⟨j, hj'⟩)) := by
        rw [Nat.zero_add, List.get?_eq_get hj']
      rw [hgv] at hv
      cases hv
      rfl

/-- Witness for C3 at the spec's concrete input: `ALT=["A"]` with `AC=1,2`
raises the count-mismatch error. -/
theorem c3_csv_allele_count_enforcement_witness :
    csvAlleleProcess "AC" (.str "1,2") (mkInfoData ["A"]) ["A"]
      = .error (.runtimeError
          "Number of allele values for AC not matching number of alleles") :=
  (c3_csv_allele_count_enforcement "AC" "1,2" ["A"] (mkInfoData ["A"])
    (by decide) (by decide) (by decide)).1 (by decide)

/-! ## Converter lemmas (for C5 and C9) -/

theorem pySplitMax_dot (m : Int) : pySplitMax "." "," m = ["."] := by
  unfold pySplitMax
  have h : pySplit "." "," = ["."] := rfl
  rw [h]
  by_cases hm : m < 0 <;> simp [hm]

theorem splitAndConvertE_dot (conv : String → Except PyErr Obj) (m : Int)
    (e : Bool) (hc : conv "." = .ok .none) :
    splitAndConvertE conv m e "."
      = .ok (if e then Obj.none else Obj.list [Obj.none]) := by
  unfold splitAndConvertE
  rw [pySplitMax_dot]
  have hmap : mapME conv ["."] = .ok [Obj.none] := by
    unfold mapME mapME
    rw [hc, exc_bind_ok, exc_bind_ok]
    rfl
  rw [hmap, exc_bind_ok]
  cases e <;> rfl

theorem splitAndConvertE_noextract_shape (conv : String → Except PyErr Obj)
    (m : Int) (x : String) {v : Obj}
    (h : splitAndConvertE conv m false x = .ok v) : ∃ l, v = .list l := by
  unfold splitAndConvertE at h
  cases hm : mapME conv (pySplitMax x "," m) with
  | error e => rw [hm, exc_bind_error] at h; exact Except.noConfusion h
  | ok l =>
    rw [hm, exc_bind_ok] at h
    refine ⟨l, ?_⟩
    cases l with
    | nil => cases h; rfl
    | cons a rest =>
      cases rest with
      | nil => cases h; rfl
      | cons b rest' => cases h; rfl

/-- The converter produced for a declared `(Type=Integer, Number)` entry:
split on commas (limit from `Number` when it is an integer literal), map the
dot-aware integer converter, unwrap singletons except in the `Number == 'A'`
branch. -/
theorem getConvertFunction_integer (meta : HeaderMeta) (key : String)
    (kv : List (String × String)) (number : String)
    (hfind : metaInfoFind meta key = .ok (some kv))
    (hty : dictGet? kv "Type" = some "Integer")
    (hnum : dictGet? kv "Number" = some number) :
    getConvertFunction meta key
      = .ok (match pyIntParse number with
        | some n => splitAndConvertE (dotToNone pyIntConv) n true
        | Option.none =>
          if number = "A" then splitAndConvertE (dotToNone pyIntConv) (-1) false
          else splitAndConvertE (dotToNone pyIntConv) (-1) true) := by
  unfold getConvertFunction
  rw [hfind, exc_bind_ok]
  simp only [hty, hnum]
  cases hp : pyIntParse number with
  | some n =>
    simp only [hp]
    rfl
  | none =>
    by_cases hA : number = "A"
    · simp only [hp, hA, if_pos]
      rfl
    · simp only [hp, if_neg hA]
      rfl

/-! ## Claim C9 -/

/-- Claim C9 counterexample: for an INFO field declared `Type=Integer` with
`Number=A`, the input `"."` decodes to the one-element list `[None]`, not to
the bare missing-value sentinel `None` the claim states (the `Number == 'A'`
branch never unwraps singletons). -/
theorem c9_counterexample_number_A_dot_is_list :
    (getConvertFunction
        [("INFO", MetaEntry.many
          [.parsed [("ID", "AX"), ("Number", "A"), ("Type", "Integer")],
           .parsed [("ID", "DP"), ("Number", "1"), ("Type", "Integer")]])]
        "AX" >>= fun f => f ".")
      = .ok (.list [.none]) ∧ Obj.list [Obj.none] ≠ Obj.none :=
  ⟨rfl, fun h => Obj.noConfusion h⟩

/-- Claim C9 as amended: for every INFO field declared `Type=Integer`, input
`"."` short-circuits through the dot-to-none wrapper without invoking the
integer converter — never an exception and never the string `"."` — yielding
the bare sentinel `None` for every declared `Number` except the literal `A`,
where the undecoded singleton list `[None]` is produced. -/
theorem c9_integer_dot_decodes_to_sentinel (meta : HeaderMeta) (key : String)
    (kv : List (String × String)) (number : String)
    (hfind : metaInfoFind meta key = .ok (some kv))
    (hty : dictGet? kv "Type" = some "Integer")
    (hnum : dictGet? kv "Number" = some number) :
    ∃ f, getConvertFunction meta key = .ok f ∧
      f "." = .ok (if number = "A" then Obj.list [Obj.none] else Obj.none) := by
  rw [getConvertFunction_integer meta key kv number hfind hty hnum]
  have hdot : dotToNone pyIntConv "." = .ok .none := rfl
  cases hp : pyIntParse number with
  | some n =>
    have hA : number ≠ "A" := by
      intro h
      rw [h] at hp
      exact Option.noConfusion ((by decide : pyIntParse "A" = Option.none) ▸ hp)
    refine ⟨_, rfl, ?_⟩
    simp only [hp]
    rw [splitAndConvertE_dot _ _ _ hdot]
    simp [hA]
  | none =>
    refine ⟨_, rfl, ?_⟩
    simp only [hp]
    by_cases hA : number = "A"
    · simp only [hA, if_pos]
      rw [splitAndConvertE_dot _ _ _ hdot]
      rfl
    · simp only [if_neg hA]
      rw [splitAndConvertE_dot _ _ _ hdot]
      simp [hA]

/-- Witness for the amended C9 at a concrete `Number=1` declaration:
`f(".") == None`. -/
theorem c9_integer_dot_decodes_to_sentinel_witness :
    ∃ f, getConvertFunction
        [("INFO", MetaEntry.many
          [.parsed [("ID", "DP"), ("Number", "1"), ("Type", "Integer")],
           .parsed [("ID", "NS"), ("Number", "1"), ("Type", "Integer")]])]
        "DP" = .ok f ∧
      f "." = .ok Obj.none := by
  have h := c9_integer_dot_decodes_to_sentinel
    [("INFO", MetaEntry.many
      [.parsed [("ID", "DP"), ("Number", "1"), ("Type", "Integer")],
       .parsed [("ID", "NS"), ("Number", "1"), ("Type", "Integer")]])]
    "DP" [("ID", "DP"), ("Number", "1"), ("Type", "Integer")] "1"
    rfl rfl rfl
  simpa using h

/-! ## Claim C5 -/

theorem dictSetIn_outer_ne {d d' : InfoData} {a k : String} {v : Obj}
    (h : dictSetIn d a k v = .ok d') (a' : String) (ha : a' ≠ a) :
    dictGet? d' a' = dictGet? d a' := by
  unfold dictSetIn at h
  cases hb : dictGet? d a with
  | none => simp [hb] at h
  | some b =>
    simp only [hb] at h
    cases h
    exact dictGet?_set_ne _ _ _ _ ha

/-- Claim C5: for an INFO key declared with `Number='A'` (any declared Type)
handled by the fallback `NativeInfoProcessor`, a successful decode always
stores a *list* (comma-split with no limit, never unwrapped) under the
`'ALL'` key only — no allele bucket is touched. -/
theorem c5_number_A_fallback_stores_list_under_ALL (meta : HeaderMeta)
    (key s ty : String) (kv : List (String × String)) (d d' : InfoData)
    (alleles : List String)
    (hfind : metaInfoFind meta key = .ok (some kv))
    (hty : dictGet? kv "Type" = some ty)
    (hnum : dictGet? kv "Number" = some "A")
    (hok : nativeProcess meta key (.str s) d alleles = .ok d') :
    (∃ l, dictGet2? d' "ALL" key = some (.list l)) ∧
    (∀ a, a ≠ "ALL" → dictGet? d' a = dictGet? d a) := by
  have hfunc : getConvertFunction meta key
      = .ok (splitAndConvertE
          (if ty = "Integer" then dotToNone pyIntConv
           else if ty = "Number" ∨ ty = "Double" ∨ ty = "Float" then
             dotToNone pyFloatConv
           else if ty = "Flag" then dotToNone pyBoolConv
           else dotToNone pyStrConv) (-1) false) := by
    unfold getConvertFunction
    rw [hfind, exc_bind_ok]
    simp only [hty, hnum]
    have hA : pyIntParse "A" = Option.none := by decide
    simp only [hA, if_pos]
    rfl
  have hok2 : (do
      let func ← getConvertFunction meta key
      let v ← func s
      dictSetIn d "ALL" key v) = Except.ok d' := hok
  rw [hfunc, exc_bind_ok] at hok2
  cases hsv : splitAndConvertE
      (if ty = "Integer" then dotToNone pyIntConv
       else if ty = "Number" ∨ ty = "Double" ∨ ty = "Float" then
         dotToNone pyFloatConv
       else if ty = "Flag" then dotToNone pyBoolConv
       else dotToNone pyStrConv) (-1) false s with
  | error e => rw [hsv, exc_bind_error] at hok2; exact Except.noConfusion hok2
  | ok v =>
    rw [hsv, exc_bind_ok] at hok2
    obtain ⟨l, hl⟩ := splitAndConvertE_noextract_shape _ _ _ hsv
    subst hl
    exact ⟨⟨l, dictSetIn_get2_self hok2⟩,
      fun a ha => dictSetIn_outer_ne hok2 a ha⟩

/-- Witness for C5: `AF` declared `Number=A, Type=Float`, value `"0.5"`,
one ALT allele — the decode stores `[0.5]` under `'ALL'` and leaves the
allele bucket untouched. -/
theorem c5_number_A_fallback_stores_list_under_ALL_witness :
    (∃ l, dictGet2?
        [("A", ([] : Bucket)), ("ALL", [("AF", Obj.list [Obj.f "0.5"])])]
        "ALL" "AF" = some (.list l)) ∧
    (∀ a, a ≠ "ALL" →
      dictGet? [("A", ([] : Bucket)), ("ALL", [("AF", Obj.list [Obj.f "0.5"])])] a
        = dictGet? (mkInfoData ["A"]) a) :=
  c5_number_A_fallback_stores_list_under_ALL
    [("INFO", MetaEntry.many
      [.parsed [("ID", "AF"), ("Number", "A"), ("Type", "Float")],
       .parsed [("ID", "DP"), ("Number", "1"), ("Type", "Integer")]])]
    "AF" "0.5" "Float" [("ID", "AF"), ("Number", "A"), ("Type", "Float")]
    (mkInfoData ["A"])
    [("A", ([] : Bucket)), ("ALL", [("AF", Obj.list [Obj.f "0.5"])])]
    ["A"] rfl rfl rfl rfl

/-! ## Claim C4 -/

/-- Characterization of the annotation bucketing loop shared by the VEP and
snpEff processors: allele `j`'s bucket receives exactly the sub-records whose
1-based index field matches `j + 1`. -/
theorem annoLoop_spec (numKey key : String) (allData : List Obj)
    (alleles : List String) (d d' : InfoData)
    (h : alleleWriteLoop key
        (fun i => do
          let flt ← filterME (fun r => annoIndexMatch numKey r i) allData
          pure (Obj.list flt)) 0 alleles d = .ok d')
    (hnd : alleles.Nodup) :
    ∀ j (hj : j < alleles.length), ∃ flt,
      filterME (fun r => annoIndexMatch numKey r j) allData = .ok flt ∧
      dictGet2? d' (alleles.get ⟨j, hj⟩) key = some (.list flt) := by
  intro j hj
  obtain ⟨v, hv, hget⟩ := alleleWriteLoop_values key _ alleles 0 d d' h hnd j hj
  rw [Nat.zero_add] at hv
  cases hfil : filterME (fun r => annoIndexMatch numKey r j) allData with
  | error e => rw [hfil, exc_bind_error] at hv; exact Except.noConfusion hv
  | ok flt =>
    rw [hfil, exc_bind_ok] at hv
    cases hv
    exact ⟨flt, rfl, hget⟩

/-- Claim C4 counterexample: the snpEff processor, unlike the VEP one, has
*no* single-allele special case.  With the sole ALT allele `A` and one parsed
sub-record whose `Genotype_Number` is `2`, the allele's `EFF` bucket ends up
the *empty* list — the sub-record was not assigned to the sole allele, and the
index field *was* consulted. -/
theorem c4_counterexample_snpeff_single_allele_consults_index :
    snpEffAllData ["Effect", "Genotype_Number"] "X(2)"
      = .ok [.dict [("Effect", .s "X"), ("Genotype_Number", .i 2)]] ∧
    snpEffProcess ["Effect", "Genotype_Number"] "EFF" (.str "X(2)")
        (mkInfoData ["A"]) ["A"]
      = .ok [("A", [("EFF", .list [])]), ("ALL", [])] ∧
    Obj.list []
      ≠ Obj.list [.dict [("Effect", .s "X"), ("Genotype_Number", .i 2)]] :=
  ⟨rfl, rfl, by
    intro h
    injection h with h'
    exact List.noConfusion h'⟩

/-- Claim C4 as amended: the VEP/CSQ processor assigns, when there is exactly
one ALT allele, every parsed sub-record to that allele without consulting
`ALLELE_NUM`; the snpEff/EFF processor always — also with a single allele —
buckets each sub-record by `Genotype_Number - 1`; and with two or more ALT
alleles the VEP processor likewise buckets by `ALLELE_NUM - 1`. -/
theorem c4_annotation_allele_bucketing (fields : List String) (key s : String)
    (alleles : List String) (d : InfoData) :
    (∀ a allData, alleles = [a] → vepAllData fields s = .ok allData →
      vepProcess fields key (.str s) d alleles
        = dictSetIn d a key (.list allData)) ∧
    (∀ d', alleles.Nodup →
      snpEffProcess fields key (.str s) d alleles = .ok d' →
      ∀ j (hj : j < alleles.length), ∃ allData flt,
        snpEffAllData fields s = .ok allData ∧
        filterME (fun r => annoIndexMatch "Genotype_Number" r j) allData = .ok flt ∧
        dictGet2? d' (alleles.get ⟨j, hj⟩) key = some (.list flt)) ∧
    (∀ d', alleles.Nodup → 2 ≤ alleles.length →
      vepProcess fields key (.str s) d alleles = .ok d' →
      ∀ j (hj : j < alleles.length), ∃ allData flt,
        vepAllData fields s = .ok allData ∧
        filterME (fun r => annoIndexMatch "ALLELE_NUM" r j) allData = .ok flt ∧
        dictGet2? d' (alleles.get ⟨j, hj⟩) key = some (.list flt)) := by
  refine ⟨?_, ?_, ?_⟩
  · intro a allData hAl hAll
    subst hAl
    have h1 : vepProcess fields key (.str s) d [a] = (do
        let allData ← vepAllData fields s
        dictSetIn d a key (.list allData)) := rfl
    rw [h1, hAll, exc_bind_ok]
  · intro d' hnd hok j hj
    have h1 : snpEffProcess fields key (.str s) d alleles = (do
        let allData ← snpEffAllData fields s
        alleleWriteLoop key
          (fun i => do
            let flt ← filterME (fun r => annoIndexMatch "Genotype_Number" r i) allData
            pure (Obj.list flt)) 0 alleles d) := rfl
    rw [h1] at hok
    cases hAll : snpEffAllData fields s with
    | error e => rw [hAll, exc_bind_error] at hok; exact Except.noConfusion hok
    | ok allData =>
      rw [hAll, exc_bind_ok] at hok
      obtain ⟨flt, hfil, hget⟩ :=
        annoLoop_spec "Genotype_Number" key allData alleles d d' hok hnd j hj
      exact ⟨allData, flt, rfl, hfil, hget⟩
  · intro d' hnd h2 hok j hj
    match alleles, hnd, h2, hok, hj with
    | a :: b :: rest, hnd, h2, hok, hj =>
      have h1 : vepProcess fields key (.str s) d (a :: b :: rest) = (do
          let allData ← vepAllData fields s
          alleleWriteLoop key
            (fun i => do
              let flt ← filterME (fun r => annoIndexMatch "ALLELE_NUM" r i) allData
              pure (Obj.list flt)) 0 (a :: b :: rest) d) := rfl
      rw [h1] at hok
      cases hAll : vepAllData fields s with
      | error e => rw [hAll, exc_bind_error] at hok; exact Except.noConfusion hok
      | ok allData =>
        rw [hAll, exc_bind_ok] at hok
        obtain ⟨flt, hfil, hget⟩ :=
          annoLoop_spec "ALLELE_NUM" key allData (a :: b :: rest) d d' hok hnd j hj
        exact ⟨allData, flt, rfl, hfil, hget⟩

/-- Witness for the amended C4, exercising all three conjuncts on concrete
inputs: a single-allele VEP record with a malformed index (5) still assigned
to the sole allele; a single-allele snpEff record with index 2 filtered out;
and a two-allele VEP record bucketed by index. -/
theorem c4_annotation_allele_bucketing_witness :
    vepProcess ["Allele", "ALLELE_NUM"] "CSQ" (.str "G|5")
        (mkInfoData ["A"]) ["A"]
      = .ok [("A", [("CSQ",
          .list [.dict [("Allele", .s "G"), ("ALLELE_NUM", .i 5)]])]), ("ALL", [])] ∧
    (∃ allData flt,
      snpEffAllData ["Effect", "Genotype_Number"] "X(2)" = .ok allData ∧
      filterME (fun r => annoIndexMatch "Genotype_Number" r 0) allData = .ok flt ∧
      dictGet2? [("A", [("EFF", Obj.list [])]), ("ALL", ([] : Bucket))]
        (["A"].get ⟨0, by decide⟩) "EFF" = some (.list flt)) ∧
    (∃ allData flt,
      vepAllData ["Allele", "ALLELE_NUM"] "G|1,T|2" = .ok allData ∧
      filterME (fun r => annoIndexMatch "ALLELE_NUM" r 1) allData = .ok flt ∧
      dictGet2?
        [("G", [("CSQ", Obj.list [.dict [("Allele", .s "G"), ("ALLELE_NUM", .i 1)]])]),
         ("T", [("CSQ", Obj.list [.dict [("Allele", .s "T"), ("ALLELE_NUM", .i 2)]])]),
         ("ALL", ([] : Bucket))]
        (["G", "T"].get ⟨1, by decide⟩) "CSQ" = some (.list flt)) := by
  refine ⟨?_, ?_, ?_⟩
  · exact ((c4_annotation_allele_bucketing ["Allele", "ALLELE_NUM"] "CSQ" "G|5"
      ["A"] (mkInfoData ["A"])).1 "A"
      [.dict [("Allele", .s "G"), ("ALLELE_NUM", .i 5)]] rfl rfl).trans rfl
  · exact (c4_annotation_allele_bucketing ["Effect", "Genotype_Number"] "EFF"
      "X(2)" ["A"] (mkInfoData ["A"])).2.1
      [("A", [("EFF", Obj.list [])]), ("ALL", [])] (by decide) rfl 0 (by decide)
  · exact (c4_annotation_allele_bucketing ["Allele", "ALLELE_NUM"] "CSQ"
      "G|1,T|2" ["G", "T"] (mkInfoData ["G", "T"])).2.2
      [("G", [("CSQ", Obj.list [.dict [("Allele", .s "G"), ("ALLELE_NUM", .i 1)]])]),
       ("T", [("CSQ", Obj.list [.dict [("Allele", .s "T"), ("ALLELE_NUM", .i 2)]])]),
       ("ALL", [])] (by decide) (by decide) rfl 1 (by decide)

/-! ## Claim C10 -/

theorem dictGet?_filter_ne {α : Type} (d : List (String × α)) (k k' : String)
    (h : k' ≠ k) :
    dictGet? (d.filter (fun p => ¬ p.1 = k)) k' = dictGet? d k' := by
  induction d with
  | nil => rfl
  | cons p rest ih =>
    obtain ⟨k₀, v₀⟩ := p
    have hcons : List.filter (fun p => ¬ p.1 = k) ((k₀, v₀) :: rest)
        = if k₀ = k then List.filter (fun p => ¬ p.1 = k) rest
          else (k₀, v₀) :: List.filter (fun p => ¬ p.1 = k) rest := by
      by_cases h₀ : k₀ = k <;> simp [List.filter_cons, h₀]
    rw [hcons]
    by_cases h₀ : k₀ = k
    · rw [if_pos h₀, ih]
      subst h₀
      simp [dictGet?, Ne.symm h]
    · rw [if_neg h₀]
      by_cases h₁ : k₀ = k'
      · simp [dictGet?, h₁]
      · simp only [dictGet?, if_neg h₁]
        exact ih

theorem zip_map_fst_take {α β : Type} :
    ∀ (a : List α) (b : List β),
      (List.zip a b).map Prod.fst = a.take (min a.length b.length) := by
  intro a
  induction a with
  | nil => intro b; simp
  | cons x xs ih =>
    intro b
    cases b with
    | nil => simp
    | cons y ys =>
      simp only [List.zip_cons_cons, List.map_cons, List.length_cons]
      rw [ih ys]
      have : min (xs.length + 1) (ys.length + 1) = min xs.length ys.length + 1 := by
        omega
      rw [this, List.take_succ_cons]

theorem dictSet_eq_append {α : Type} (b : List (String × α)) (k : String) (v : α)
    (h : ∀ p ∈ b, p.1 ≠ k) : dictSet b k v = b ++ [(k, v)] := by
  induction b with
  | nil => rfl
  | cons p rest ih =>
    obtain ⟨k₀, v₀⟩ := p
    have hk₀ : k₀ ≠ k := h (k₀, v₀) (List.mem_cons_self _ _)
    simp only [dictSet, if_neg hk₀, List.cons_append]
    rw [ih (fun p hp => h p (List.mem_cons_of_mem _ hp))]

theorem dictFold_eq_of_nodup {α : Type} :
    ∀ (ps : List (String × α)) (b : List (String × α)),
      ((b ++ ps).map Prod.fst).Nodup →
      ps.foldl (fun acc kv => dictSet acc kv.1 kv.2) b = b ++ ps := by
  intro ps
  induction ps with
  | nil => intro b _; simp
  | cons p rest ih =>
    intro b hnd
    obtain ⟨k, v⟩ := p
    have hk : ∀ q ∈ b, q.1 ≠ k := by
      intro q hq hqk
      have : (b.map Prod.fst ++ k :: rest.map Prod.fst).Nodup := by
        simpa using hnd
      have hdisj := (List.nodup_append.mp this).2.2
      exact hdisj (List.mem_map_of_mem Prod.fst hq) (hqk ▸ List.mem_cons_self _ _)
    simp only [List.foldl_cons]
    rw [dictSet_eq_append b k v hk]
    have : (((b ++ [(k, v)]) ++ rest).map Prod.fst).Nodup := by
      simpa using hnd
    rw [ih (b ++ [(k, v)]) this]
    simp

/-- With distinct FORMAT keys, the sample-map dict build is the plain zip. -/
theorem buildSampleMap_eq_zip (keys : List String) (text : String)
    (hnd : keys.Nodup) :
    buildSampleMap keys text
      = (List.zip keys (pySplit text ":")).map
          (fun kv => (kv.1, convToNumberExtract kv.2)) := by
  unfold buildSampleMap
  have hmap : (List.zip keys (pySplit text ":")).foldl
      (fun b kv => dictSet b kv.1 (convToNumberExtract kv.2)) []
      = (List.zip keys (pySplit text ":")).map
          (fun kv => (kv.1, convToNumberExtract kv.2)) := by
    have hstep : ∀ (ps : List (String × String)) (b : List (String × Obj)),
        ps.foldl (fun acc kv => dictSet acc kv.1 (convToNumberExtract kv.2)) b
        = (ps.map (fun kv => (kv.1, convToNumberExtract kv.2))).foldl
            (fun acc kv => dictSet acc kv.1 kv.2) b := by
      intro ps
      induction ps with
      | nil => intro b; rfl
      | cons p rest ih => intro b; simp only [List.foldl_cons, List.map_cons, ih]
    rw [hstep]
    rw [dictFold_eq_of_nodup _ [] (by
      simp only [List.nil_append, List.map_map]
      have : (Prod.fst ∘ fun kv : String × String =>
          (kv.1, convToNumberExtract kv.2)) = Prod.fst := rfl
      rw [this]
      rw [zip_map_fst_take]
      exact hnd.sublist (List.take_sublist _ _))]
    simp
  exact hmap

theorem sampleLoop_spec (keys : List String) :
    ∀ (sams : List String) (data : Rec) (sd : List (String × Obj)),
      sams.Nodup →
      (∀ nm ∈ sams, ∃ t, dictGet? data nm = some (.s t)) →
      ∃ sd' data', sampleLoop keys sams data sd = .ok (sd', data') ∧
        (∀ nm t, nm ∈ sams → dictGet? data nm = some (.s t) →
          dictGet? sd' nm = some (.dict (buildSampleMap keys t))) ∧
        (∀ k, k ∉ sams → dictGet? data' k = dictGet? data k) ∧
        (∀ k, k ∉ sams → dictGet? sd' k = dictGet? sd k) := by
  intro sams
  induction sams with
  | nil =>
    intro data sd _ _
    exact ⟨sd, data, rfl, fun nm t h => absurd h (List.not_mem_nil nm),
      fun _ _ => rfl, fun _ _ => rfl⟩
  | cons nm rest ih =>
    intro data sd hnd hvals
    obtain ⟨t, ht⟩ := hvals nm (List.mem_cons_self _ _)
    have hnm : nm ∉ rest := (List.nodup_cons.mp hnd).1
    have hpop : dictPop data nm = .ok (Obj.s t, data.filter (fun p => ¬ p.1 = nm)) := by
      unfold dictPop
      rw [ht]
    have hvals' : ∀ nm' ∈ rest,
        ∃ t', dictGet? (data.filter (fun p => ¬ p.1 = nm)) nm' = some (.s t') := by
      intro nm' hm
      have hne : nm' ≠ nm := fun h => hnm (h ▸ hm)
      rw [dictGet?_filter_ne data nm nm' hne]
      exact hvals nm' (List.mem_cons_of_mem _ hm)
    obtain ⟨sd', data', hloop, h1, h2, h3⟩ :=
      ih (data.filter (fun p => ¬ p.1 = nm))
        (dictSet sd nm (.dict (buildSampleMap keys t)))
        (List.nodup_cons.mp hnd).2 hvals'
    refine ⟨sd', data', ?_, ?_, ?_, ?_⟩
    · unfold sampleLoop
      rw [hpop, exc_bind_ok]
      exact hloop
    · intro nm' t' hm ht'
      rcases List.mem_cons.mp hm with hEq | hMem
      · subst hEq
        have : t' = t := by
          rw [ht] at ht'
          have h2 := Option.some.inj ht'
          injection h2 with h3
          exact h3.symm
        subst this
        rw [h3 nm' hnm, dictGet?_set_self]
      · have hne : nm' ≠ nm := fun h => hnm (h ▸ hMem)
        exact h1 nm' t' hMem (by rwa [dictGet?_filter_ne data nm nm' hne])
    · intro k hk
      have hkn : k ≠ nm := fun h => hk (h ▸ List.mem_cons_self _ _)
      rw [h2 k (fun h => hk (List.mem_cons_of_mem _ h)),
        dictGet?_filter_ne data nm k hkn]
    · intro k hk
      have hkn : k ≠ nm := fun h => hk (h ▸ List.mem_cons_self _ _)
      rw [h3 k (fun h => hk (List.mem_cons_of_mem _ h)),
        dictGet?_set_ne _ _ _ _ hkn]

/-- Claim C10: decoding sample columns zips the colon-split value pieces
against the colon-split FORMAT keys and silently truncates to the shorter
list — missing trailing keys are simply absent, extra pieces are dropped, and
no error is raised.  Conjunct 1: decoding succeeds and each sample's map is
`buildSampleMap`.  Conjunct 2: with distinct FORMAT keys that map is exactly
the zip.  Conjunct 3: its key set is the FORMAT-key prefix of length
`min |keys| |pieces|`. -/
theorem c10_sample_format_zip_truncates (samples : List String) (data : Rec)
    (fmt : String)
    (hfmt : dictGet? data "FORMAT" = some (.s fmt))
    (hnd : samples.Nodup)
    (hfs : "FORMAT" ∉ samples)
    (hvals : ∀ nm ∈ samples, ∃ t, dictGet? data nm = some (.s t)) :
    (∃ data', parseDataSampleFields samples data = .ok data' ∧
      ∃ sd, dictGet? data' "SAMPLES" = some (.dict sd) ∧
        ∀ nm t, nm ∈ samples → dictGet? data nm = some (.s t) →
          dictGet? sd nm = some (.dict (buildSampleMap (pySplit fmt ":") t))) ∧
    (∀ keys text, keys.Nodup →
      buildSampleMap keys text
        = (List.zip keys (pySplit text ":")).map
            (fun kv => (kv.1, convToNumberExtract kv.2))) ∧
    (∀ keys text, keys.Nodup →
      (buildSampleMap keys text).map Prod.fst
        = keys.take (min keys.length (pySplit text ":").length)) := by
  refine ⟨?_, fun keys text h => buildSampleMap_eq_zip keys text h, ?_⟩
  · obtain ⟨sd', data', hloop, h1, h2, h3⟩ :=
      sampleLoop_spec (pySplit fmt ":") samples data [] hnd hvals
    have hfmt' : dictGet? data' "FORMAT" = some (.s fmt) := by
      rw [h2 "FORMAT" hfs]; exact hfmt
    have hdel : dictDel (dictSet data' "SAMPLES" (.dict sd')) "FORMAT"
        = .ok ((dictSet data' "SAMPLES" (.dict sd')).filter
            (fun p => ¬ p.1 = "FORMAT")) := by
      unfold dictDel
      rw [dictGet?_set_ne _ _ _ _ (by decide), hfmt']
    refine ⟨(dictSet data' "SAMPLES" (.dict sd')).filter
        (fun p => ¬ p.1 = "FORMAT"), ?_, sd', ?_, ?_⟩
    · unfold parseDataSampleFields
      rw [hfmt]
      show (do
        let x ← sampleLoop (pySplit fmt ":") samples data []
        dictDel (dictSet x.2 "SAMPLES" (.dict x.1)) "FORMAT") = _
      rw [hloop, exc_bind_ok]
      exact hdel
    · rw [dictGet?_filter_ne _ _ _ (by decide), dictGet?_set_self]
    · intro nm t hm ht
      exact h1 nm t hm ht
  · intro keys text h
    rw [buildSampleMap_eq_zip keys text h, List.map_map]
    have : (Prod.fst ∘ fun kv : String × String =>
        (kv.1, convToNumberExtract kv.2)) = Prod.fst := rfl
    rw [this, zip_map_fst_take]

/-- Witness for C10: FORMAT `GT:GQ:HQ` with sample text `0|0:48` — decoding
succeeds, `GT`/`GQ` are present, and the trailing `HQ` key is absent. -/
theorem c10_sample_format_zip_truncates_witness :
    (∃ data', parseDataSampleFields ["S"]
        [("FORMAT", Obj.s "GT:GQ:HQ"), ("S", Obj.s "0|0:48")] = .ok data' ∧
      ∃ sd, dictGet? data' "SAMPLES" = some (.dict sd) ∧
        ∀ nm t, nm ∈ ["S"] →
          dictGet? [("FORMAT", Obj.s "GT:GQ:HQ"), ("S", Obj.s "0|0:48")] nm
            = some (.s t) →
          dictGet? sd nm
            = some (.dict (buildSampleMap (pySplit "GT:GQ:HQ" ":") t))) ∧
    (∀ keys text, keys.Nodup →
      buildSampleMap keys text
        = (List.zip keys (pySplit text ":")).map
            (fun kv => (kv.1, convToNumberExtract kv.2))) ∧
    (∀ keys text, keys.Nodup →
      (buildSampleMap keys text).map Prod.fst
        = keys.take (min keys.length (pySplit text ":").length)) :=
  c10_sample_format_zip_truncates ["S"]
    [("FORMAT", Obj.s "GT:GQ:HQ"), ("S", Obj.s "0|0:48")] "GT:GQ:HQ"
    rfl (by decide) (by decide)
    (fun nm hm => by
      cases hm with
      | head => exact ⟨"0|0:48", rfl⟩
      | tail _ h => exact absurd h (List.not_mem_nil nm))

/-! ## Header-loop characterization (for C7 and C8) -/

theorem pyStartsWith_hash_of_double (s : String)
    (h : pyStartsWith s "##" = true) : pyStartsWith s "#" = true := by
  unfold pyStartsWith at *
  cases hs : s.toList with
  | nil => rw [hs] at h; simp [List.isPrefixOf] at h
  | cons c rest =>
    rw [hs] at h
    cases rest with
    | nil => simp [List.isPrefixOf] at h
    | cons c2 rest2 =>
      simp only [List.isPrefixOf, Bool.and_eq_true, beq_iff_eq] at h ⊢
      exact ⟨h.1, trivial⟩

theorem headerConsumed_cons (l : String) (rest : List String) :
    headerConsumed (l :: rest)
      = if pyStartsWith (pyReplace l "\n" "") "#" = true
        then pyReplace l "\n" "" :: headerConsumed rest
        else [] := by
  unfold headerConsumed
  simp [List.takeWhile_cons]

/-- Full characterization of the `_parseHeader` line loop on success: the
accumulated meta dict is the grouped `##` pairs of the consumed `#`-prefix
appended onto the incoming accumulator, and the column list is the last
column-header-shaped consumed line (transformed), else the incoming one. -/
theorem headerLoop_spec :
    ∀ (lines : List String) (m : List (String × List String)) (h0 : List String)
      (m' : List (String × List String)) (h' : List String),
      headerLoop lines m h0 = .ok (m', h') →
      m' = (metaPairsSpec lines).foldl (fun acc p => dictAppend acc p.1 p.2) m ∧
      h' = ((columnLines lines).getLast?).elim h0
        (fun l => pySplit (pyReplace l "#" "") "\t") := by
  intro lines
  induction lines with
  | nil =>
    intro m h0 m' h' h
    cases h
    exact ⟨rfl, rfl⟩
  | cons l rest ih =>
    intro m h0 m' h' h
    unfold headerLoop at h
    by_cases hdd : pyStartsWith (pyReplace l "\n" "") "##" = true
    · have hd : pyStartsWith (pyReplace l "\n" "") "#" = true :=
        pyStartsWith_hash_of_double _ hdd
      rw [if_pos hdd] at h
      cases hsp : pySplitMax (strDrop (pyReplace l "\n" "") 2) "=" 1 with
      | nil => rw [hsp] at h; exact Except.noConfusion h
      | cons k tl =>
        cases tl with
        | nil => rw [hsp] at h; exact Except.noConfusion h
        | cons v tl2 =>
          cases tl2 with
          | cons _ _ => rw [hsp] at h; exact Except.noConfusion h
          | nil =>
            rw [hsp] at h
            obtain ⟨ihm, ihh⟩ := ih _ _ _ _ h
            have hpo : metaPairOf (pyReplace l "\n" "") = some (k, v) := by
              unfold metaPairOf
              rw [hsp]
            have hmp : metaPairsSpec (l :: rest)
                = (k, v) :: metaPairsSpec rest := by
              unfold metaPairsSpec
              rw [headerConsumed_cons, if_pos hd]
              simp [List.filterMap_cons, hdd, hpo]
            have hcl : columnLines (l :: rest) = columnLines rest := by
              unfold columnLines
              rw [headerConsumed_cons, if_pos hd]
              simp [List.filter_cons, hdd]
            rw [hmp, hcl]
            exact ⟨ihm, ihh⟩
    · rw [if_neg hdd] at h
      by_cases hd : pyStartsWith (pyReplace l "\n" "") "#" = true
      · rw [if_pos hd] at h
        obtain ⟨ihm, ihh⟩ := ih _ _ _ _ h
        have hmp : metaPairsSpec (l :: rest) = metaPairsSpec rest := by
          unfold metaPairsSpec
          rw [headerConsumed_cons, if_pos hd]
          simp [List.filterMap_cons, hdd]
        have hcl : columnLines (l :: rest)
            = pyReplace l "\n" "" :: columnLines rest := by
          unfold columnLines
          rw [headerConsumed_cons, if_pos hd]
          simp [List.filter_cons, hd, hdd]
        rw [hmp, hcl]
        refine ⟨ihm, ?_⟩
        cases hlast : (columnLines rest).getLast? with
        | none =>
          have hre : columnLines rest = [] := List.getLast?_eq_none_iff.mp hlast
          rw [hre]
          rw [hre] at ihh
          simpa using ihh
        | some last =>
          have hne : columnLines rest ≠ [] := by
            intro hc
            rw [hc] at hlast
            exact Option.noConfusion hlast
          obtain ⟨x, xs, hxx⟩ := List.exists_cons_of_ne_nil hne
          rw [hlast] at ihh
          rw [hxx, List.getLast?_cons_cons]
          rw [hxx] at hlast
          rw [hlast]
          exact ihh
      · rw [if_neg hd] at h
        cases h
        have hmp : metaPairsSpec (l :: rest) = [] := by
          unfold metaPairsSpec
          rw [headerConsumed_cons, if_neg hd]
          rfl
        have hcl : columnLines (l :: rest) = [] := by
          unfold columnLines
          rw [headerConsumed_cons, if_neg hd]
          rfl
        rw [hmp, hcl]
        exact ⟨rfl, rfl⟩

/-- Model of `HeaderParser.parse` on success: metadata comes exactly from the `##`
lines of the consumed `#`-prefix (grouped in file order, processed,
singleton-collapsed), the column list is the last consumed column-header
line with every `#` removed, split on tab, and the samples are the column
list minus the spec fields. -/
theorem parseHeader_characterization (lines : List String) (meta : HeaderMeta)
    (header samples : List String)
    (h : parseHeader lines = .ok (meta, header, samples)) :
    meta = processedMeta (groupPairs (metaPairsSpec lines)) ∧
    header = ((columnLines lines).getLast?).elim []
      (fun l => pySplit (pyReplace l "#" "") "\t") ∧
    samples = getSamples header := by
  unfold parseHeader at h
  cases hl : headerLoop lines [] [] with
  | error e => rw [hl, exc_bind_error] at h; exact Except.noConfusion h
  | ok mh =>
    rw [hl, exc_bind_ok] at h
    obtain ⟨m0, h0⟩ := mh
    obtain ⟨hm, hh⟩ := headerLoop_spec lines [] [] m0 h0 hl
    cases h
    exact ⟨by rw [hm]; rfl, by rw [hh], rfl⟩

/-! ## Claim C7 -/

/-- Claim C7 counterexample: on the line stream
`["#A\tB", "##K=V", "#C\tD", "x\ty"]` the first column-header line
`#A\tB` does *not* terminate header parsing: the later `##K=V` line still
lands in the metadata, and the column list is overwritten by the second
`#`-line to `["C", "D"]` (not `["A", "B"]` from the first, as claimed). -/
theorem c7_counterexample_column_line_does_not_terminate :
    parseHeader ["#A\tB", "##K=V", "#C\tD", "x\ty"]
      = .ok ([("K", .single (.raw "V"))], ["C", "D"], ["C", "D"]) ∧
    (["C", "D"] : List String) ≠ ["A", "B"] :=
  ⟨rfl, by decide⟩

/-- Claim C7 as amended: header parsing terminates at the first line that does
not start with `#` (not at the column header line); the stored column list is
the *last* single-`#` line among the consumed prefix, with every `#` character
removed, split on tab; `##` lines anywhere in the consumed prefix — including
after a column-header line — contribute to the metadata; and no line at or
after the first non-`#` line contributes to the metadata or the column
list. -/
theorem c7_header_termination_and_columns (lines : List String)
    (meta : HeaderMeta) (header samples : List String)
    (h : parseHeader lines = .ok (meta, header, samples)) :
    meta = processedMeta (groupPairs (metaPairsSpec lines)) ∧
    header = ((columnLines lines).getLast?).elim []
      (fun l => pySplit (pyReplace l "#" "") "\t") ∧
    samples = getSamples header :=
  parseHeader_characterization lines meta header samples h

/-- Witness for the amended C7 on a concrete stream with two column-header
lines and a trailing meta line. -/
theorem c7_header_termination_and_columns_witness :
    ([("K", MetaEntry.single (.raw "V"))] : HeaderMeta)
        = processedMeta (groupPairs
            (metaPairsSpec ["#A\tB", "##K=V", "#C\tD", "x\ty"])) ∧
    (["C", "D"] : List String)
        = ((columnLines ["#A\tB", "##K=V", "#C\tD", "x\ty"]).getLast?).elim []
            (fun l => pySplit (pyReplace l "#" "") "\t") ∧
    (["C", "D"] : List String) = getSamples ["C", "D"] :=
  c7_header_termination_and_columns ["#A\tB", "##K=V", "#C\tD", "x\ty"]
    [("K", MetaEntry.single (.raw "V"))] ["C", "D"] ["C", "D"] rfl

/-! ## Claim C8 -/

theorem dictAppend_get_self {α : Type} (m : List (String × List α)) (k : String)
    (v : α) :
    dictGet? (dictAppend m k v) k = some ((dictGet? m k).getD [] ++ [v]) := by
  unfold dictAppend
  exact dictGet?_set_self _ _ _

theorem dictAppend_get_ne {α : Type} (m : List (String × List α)) (k k' : String)
    (v : α) (h : k' ≠ k) :
    dictGet? (dictAppend m k v) k' = dictGet? m k' := by
  unfold dictAppend
  exact dictGet?_set_ne _ _ _ _ h

theorem groupFold_lookup (k : String) :
    ∀ (ps : List (String × String)) (m : List (String × List String)),
      dictGet? (ps.foldl (fun acc p => dictAppend acc p.1 p.2) m) k
        = (if ((ps.filter (fun p => p.1 = k)).map Prod.snd).isEmpty
           then dictGet? m k
           else some ((dictGet? m k).getD []
             ++ (ps.filter (fun p => p.1 = k)).map Prod.snd)) := by
  intro ps
  induction ps with
  | nil => intro m; simp
  | cons p rest ih =>
    intro m
    obtain ⟨pk, pv⟩ := p
    by_cases hk : pk = k
    · subst hk
      have hfil : List.filter (fun p => p.1 = pk) ((pk, pv) :: rest)
          = (pk, pv) :: List.filter (fun p => p.1 = pk) rest := by
        simp [List.filter_cons]
      simp only [List.foldl_cons, hfil, List.map_cons, List.isEmpty_cons]
      rw [ih (dictAppend m pk pv)]
      by_cases he : ((rest.filter (fun p => p.1 = pk)).map Prod.snd).isEmpty
      · rw [if_pos he]
        have : (rest.filter (fun p => p.1 = pk)).map Prod.snd = [] :=
          List.isEmpty_iff.mp he
        rw [dictAppend_get_self, this]
        simp
      · rw [if_neg he]
        rw [dictAppend_get_self]
        simp
    · have hfil : List.filter (fun p => p.1 = k) ((pk, pv) :: rest)
          = List.filter (fun p => p.1 = k) rest := by
        simp [List.filter_cons, hk]
      simp only [List.foldl_cons, hfil]
      rw [ih (dictAppend m pk pv), dictAppend_get_ne m pk k pv (Ne.symm hk)]

theorem dictGet?_keyed_map {α β : Type} (f : String → α → β)
    (d : List (String × α)) (k : String) :
    dictGet? (d.map (fun p => (p.1, f p.1 p.2))) k = (dictGet? d k).map (f k) := by
  induction d with
  | nil => rfl
  | cons p rest ih =>
    obtain ⟨k₀, v₀⟩ := p
    by_cases h : k₀ = k
    · subst h
      simp [dictGet?]
    · simp [dictGet?, h, ih]

/-- Claim C8: after header parsing, a meta category with exactly one declared
entry is collapsed to the bare (parsed) value, and a category with `N ≥ 2`
declared entries holds the sequence of exactly those `N` processed entries in
file order. -/
theorem c8_meta_singleton_collapse (lines : List String) (meta : HeaderMeta)
    (header samples : List String) (k : String)
    (h : parseHeader lines = .ok (meta, header, samples)) :
    (∀ v, declaredMetaValues lines k = [v] →
      dictGet? meta k = some (.single (metaItemFor k v))) ∧
    (2 ≤ (declaredMetaValues lines k).length →
      dictGet? meta k
        = some (.many ((declaredMetaValues lines k).map (metaItemFor k)))) := by
  obtain ⟨hm, _, _⟩ := parseHeader_characterization lines meta header samples h
  subst hm
  have hg : dictGet? (processedMeta (groupPairs (metaPairsSpec lines))) k
      = (dictGet? (groupPairs (metaPairsSpec lines)) k).map
          (fun vs => mkMetaEntry (vs.map (metaItemFor k))) := by
    unfold processedMeta
    exact dictGet?_keyed_map (fun k₀ vs => mkMetaEntry (vs.map (metaItemFor k₀)))
      (groupPairs (metaPairsSpec lines)) k
  have hgl : dictGet? (groupPairs (metaPairsSpec lines)) k
      = (if (declaredMetaValues lines k).isEmpty then Option.none
         else some (declaredMetaValues lines k)) := by
    unfold groupPairs
    rw [groupFold_lookup k (metaPairsSpec lines) []]
    unfold declaredMetaValues
    rfl
  constructor
  · intro v hv
    rw [hg, hgl, hv]
    rfl
  · intro h2
    rw [hg, hgl]
    match hd : declaredMetaValues lines k, h2 with
    | a :: b :: t, _ =>
      simp only [List.isEmpty_cons, if_neg]
      rfl

/-- Witness for C8: a stream declaring `INFO` twice and `X` once — `X`
collapses to the bare parsed value, `INFO` keeps an ordered 2-entry list. -/
theorem c8_meta_singleton_collapse_witness :
    (∀ v, declaredMetaValues
        ["##INFO=<ID=A,Number=1,Type=Integer,D=1>",
         "##INFO=<ID=B,Number=1,Type=Integer,D=2>",
         "##X=Y", "#H\tS", "d"] "X" = [v] →
      dictGet? (processedMeta (groupPairs (metaPairsSpec
        ["##INFO=<ID=A,Number=1,Type=Integer,D=1>",
         "##INFO=<ID=B,Number=1,Type=Integer,D=2>",
         "##X=Y", "#H\tS", "d"]))) "X" = some (.single (metaItemFor "X" v))) ∧
    (2 ≤ (declaredMetaValues
        ["##INFO=<ID=A,Number=1,Type=Integer,D=1>",
         "##INFO=<ID=B,Number=1,Type=Integer,D=2>",
         "##X=Y", "#H\tS", "d"] "INFO").length →
      dictGet? (processedMeta (groupPairs (metaPairsSpec
        ["##INFO=<ID=A,Number=1,Type=Integer,D=1>",
         "##INFO=<ID=B,Number=1,Type=Integer,D=2>",
         "##X=Y", "#H\tS", "d"]))) "INFO"
        = some (.many ((declaredMetaValues
            ["##INFO=<ID=A,Number=1,Type=Integer,D=1>",
             "##INFO=<ID=B,Number=1,Type=Integer,D=2>",
             "##X=Y", "#H\tS", "d"] "INFO").map (metaItemFor "INFO")))) := by
  have hph : parseHeader
      ["##INFO=<ID=A,Number=1,Type=Integer,D=1>",
       "##INFO=<ID=B,Number=1,Type=Integer,D=2>",
       "##X=Y", "#H\tS", "d"]
      = .ok (processedMeta (groupPairs (metaPairsSpec
          ["##INFO=<ID=A,Number=1,Type=Integer,D=1>",
           "##INFO=<ID=B,Number=1,Type=Integer,D=2>",
           "##X=Y", "#H\tS", "d"])), ["H", "S"], ["H", "S"]) := rfl
  exact ⟨(c8_meta_singleton_collapse _ _ _ _ "X" hph).1,
    (c8_meta_singleton_collapse _ _ _ _ "INFO" hph).2⟩

/-! ## Claim C6 -/

theorem procAccepts_indep (p : Processor) (key : String) (v : InfoVal)
    (b : Bool) : procAccepts p key v b = procAccepts p key (.str "") false := by
  cases p <;> rfl

theorem chainAcceptsKey_eq (procs : List Processor) (key : String)
    (v : InfoVal) (b : Bool) :
    procs.any (fun p => procAccepts p key v b) = chainAcceptsKey procs key := by
  unfold chainAcceptsKey
  induction procs with
  | nil => rfl
  | cons p rest ih => simp [List.any_cons, procAccepts_indep, ih]

/-- Every built-in chain processor, when it succeeds, writes its key into
every allele bucket and touches nothing else. -/
theorem procProcess_writes (p : Processor) (key : String) (value : InfoVal)
    (d d' : InfoData) (alleles : List String)
    (h : procProcess p key value d alleles = .ok d') :
    (∀ a ∈ alleles, (dictGet2? d' a key).isSome) ∧
    (∀ a K', ¬ (K' = key ∧ a ∈ alleles) →
      dictGet2? d' a K' = dictGet2? d a K') := by
  cases p with
  | csvAllele =>
    cases value with
    | flagTrue => exact Except.noConfusion h
    | str s =>
      have h2 : (if ¬ (pySplit s ",").length = alleles.length then
          (Except.error (PyErr.runtimeError ("Number of allele values for "
            ++ key ++ " not matching number of alleles")) : Except PyErr InfoData)
        else alleleWriteLoop key
          (fun i =>
            match (pySplit s ",").get? i with
            | some av => Except.ok (convToNumber av)
            | Option.none => Except.error PyErr.indexError) 0 alleles d)
          = Except.ok d' := h
      by_cases hlen : ¬ (pySplit s ",").length = alleles.length
      · rw [if_pos hlen] at h2
        exact Except.noConfusion h2
      · rw [if_neg hlen] at h2
        obtain ⟨h1, hp2⟩ := alleleWriteLoop_spec key _ alleles 0 d d' h2
        refine ⟨fun a ha => ?_, hp2⟩
        obtain ⟨v, hv⟩ := h1 a ha
        rw [hv]
        rfl
  | vep fields =>
    cases value with
    | flagTrue => exact Except.noConfusion h
    | str s =>
      cases alleles with
      | nil =>
        have h2 : (do
            let allData ← vepAllData fields s
            (alleleWriteLoop key
              (fun i => do
                let flt ← filterME (fun r => annoIndexMatch "ALLELE_NUM" r i) allData
                pure (Obj.list flt)) 0 ([] : List String) d)) = Except.ok d' := h
        cases hAll : vepAllData fields s with
        | error e => rw [hAll, exc_bind_error] at h2; exact Except.noConfusion h2
        | ok allData =>
          rw [hAll, exc_bind_ok] at h2
          obtain ⟨h1, hp2⟩ := alleleWriteLoop_spec key _ [] 0 d d' h2
          exact ⟨fun a ha => absurd ha (List.not_mem_nil a), hp2⟩
      | cons a tl =>
        cases tl with
        | nil =>
          have h2 : (do
              let allData ← vepAllData fields s
              dictSetIn d a key (Obj.list allData)) = Except.ok d' := h
          cases hAll : vepAllData fields s with
          | error e => rw [hAll, exc_bind_error] at h2; exact Except.noConfusion h2
          | ok allData =>
            rw [hAll, exc_bind_ok] at h2
            refine ⟨fun a' ha' => ?_, fun a' K' hne => ?_⟩
            · have haa : a' = a := by simpa using ha'
              subst haa
              rw [dictSetIn_get2_self h2]
              rfl
            · exact dictSetIn_get2_ne h2 a' K'
                (fun hc => hne ⟨hc.2, hc.1 ▸ List.mem_singleton_self a⟩)
        | cons b tl2 =>
          have h2 : (do
              let allData ← vepAllData fields s
              (alleleWriteLoop key
                (fun i => do
                  let flt ← filterME (fun r => annoIndexMatch "ALLELE_NUM" r i) allData
                  pure (Obj.list flt)) 0 (a :: b :: tl2) d)) = Except.ok d' := h
          cases hAll : vepAllData fields s with
          | error e => rw [hAll, exc_bind_error] at h2; exact Except.noConfusion h2
          | ok allData =>
            rw [hAll, exc_bind_ok] at h2
            obtain ⟨h1, hp2⟩ :=
              alleleWriteLoop_spec key _ (a :: b :: tl2) 0 d d' h2
            refine ⟨fun a' ha' => ?_, hp2⟩
            obtain ⟨v, hv⟩ := h1 a' ha'
            rw [hv]
            rfl
  | snpEff fields =>
    cases value with
    | flagTrue => exact Except.noConfusion h
    | str s =>
      have h2 : (do
          let allData ← snpEffAllData fields s
          (alleleWriteLoop key
            (fun i => do
              let flt ← filterME (fun r => annoIndexMatch "Genotype_Number" r i) allData
              pure (Obj.list flt)) 0 alleles d)) = Except.ok d' := h
      cases hAll : snpEffAllData fields s with
      | error e => rw [hAll, exc_bind_error] at h2; exact Except.noConfusion h2
      | ok allData =>
        rw [hAll, exc_bind_ok] at h2
        obtain ⟨h1, hp2⟩ := alleleWriteLoop_spec key _ alleles 0 d d' h2
        refine ⟨fun a ha => ?_, hp2⟩
        obtain ⟨v, hv⟩ := h1 a ha
        rw [hv]
        rfl

/-- Characterization of the processor chain loop on success. -/
theorem chainLoop_spec (key : String) (value : InfoVal) (alleles : List String) :
    ∀ (procs : List Processor) (d : InfoData) (pr : Bool) (d' : InfoData)
      (pr' : Bool),
      chainLoop key value alleles procs d pr = .ok (d', pr') →
      pr' = (pr || chainAcceptsKey procs key) ∧
      (∀ a K', ¬ (K' = key ∧ a ∈ alleles) →
        dictGet2? d' a K' = dictGet2? d a K') ∧
      (chainAcceptsKey procs key = true →
        ∀ a ∈ alleles, (dictGet2? d' a key).isSome) ∧
      (chainAcceptsKey procs key = false → d' = d) := by
  intro procs
  induction procs with
  | nil =>
    intro d pr d' pr' h
    cases h
    refine ⟨by simp [chainAcceptsKey], fun _ _ _ => rfl, ?_, fun _ => rfl⟩
    intro hc
    exact absurd hc (by simp [chainAcceptsKey])
  | cons p rest ih =>
    intro d pr d' pr' h
    unfold chainLoop at h
    rw [procAccepts_indep p key value pr] at h
    have hcons : chainAcceptsKey (p :: rest) key
        = (procAccepts p key (.str "") false || chainAcceptsKey rest key) := by
      unfold chainAcceptsKey
      simp [List.any_cons]
    by_cases hA : procAccepts p key (.str "") false = true
    · rw [if_pos hA] at h
      cases hp : procProcess p key value d alleles with
      | error e => rw [hp, exc_bind_error] at h; exact Except.noConfusion h
      | ok d₁ =>
        rw [hp, exc_bind_ok] at h
        obtain ⟨ih1, ih2, ih3, ih4⟩ := ih d₁ true d' pr' h
        obtain ⟨w1, w2⟩ := procProcess_writes p key value d d₁ alleles hp
        refine ⟨?_, ?_, ?_, ?_⟩
        · rw [ih1, hcons, hA]
          simp
        · intro a K' hne
          rw [ih2 a K' hne, w2 a K' hne]
        · intro _ a ha
          by_cases hr : chainAcceptsKey rest key = true
          · exact ih3 hr a ha
          · rw [ih4 (by simpa using hr)]
            exact w1 a ha
        · intro hc
          rw [hcons, hA] at hc
          simp at hc
    · have hA' : procAccepts p key (.str "") false = false := by
        simpa using hA
      rw [if_neg hA] at h
      obtain ⟨ih1, ih2, ih3, ih4⟩ := ih d pr d' pr' h
      refine ⟨?_, ih2, ?_, ?_⟩
      · rw [ih1, hcons, hA']
        simp
      · intro hc
        rw [hcons, hA'] at hc
        simp at hc
        exact ih3 hc
      · intro hc
        rw [hcons, hA'] at hc
        simp at hc
        exact ih4 hc

/-- The fallback processor, when it succeeds, writes its key under `'ALL'`
and touches nothing else. -/
theorem nativeProcess_writes (meta : HeaderMeta) (key : String)
    (value : InfoVal) (d d' : InfoData) (alleles : List String)
    (h : nativeProcess meta key value d alleles = .ok d') :
    (dictGet2? d' "ALL" key).isSome ∧
    (∀ a K', ¬ (a = "ALL" ∧ K' = key) →
      dictGet2? d' a K' = dictGet2? d a K') := by
  cases value with
  | flagTrue =>
    refine ⟨?_, fun a K' hne => dictSetIn_get2_ne h a K' hne⟩
    rw [dictSetIn_get2_self h]
    rfl
  | str s =>
    have h2 : (do
        let func ← getConvertFunction meta key
        let v ← func s
        dictSetIn d "ALL" key v) = Except.ok d' := h
    cases hf : getConvertFunction meta key with
    | error e => rw [hf, exc_bind_error] at h2; exact Except.noConfusion h2
    | ok func =>
      rw [hf, exc_bind_ok] at h2
      cases hv : func s with
      | error e => rw [hv, exc_bind_error] at h2; exact Except.noConfusion h2
      | ok v =>
        rw [hv, exc_bind_ok] at h2
        refine ⟨?_, fun a K' hne => dictSetIn_get2_ne h2 a K' hne⟩
        rw [dictSetIn_get2_self h2]
        rfl

/-- One INFO token preserves the dispatch invariant. -/
theorem chainStep_inv (procs : List Processor) (meta : HeaderMeta)
    (alleles : List String) (d : InfoData) (tok : String) (d' : InfoData)
    (hall : "ALL" ∉ alleles)
    (h : chainStep procs meta alleles d tok = .ok d')
    (hinv : infoInv procs alleles d) : infoInv procs alleles d' := by
  have h1 : (do
      let dp ← chainLoop (splitInfoToken tok).1 (splitInfoToken tok).2 alleles
        procs d false
      if dp.2 then pure dp.1
      else (nativeProcess meta (splitInfoToken tok).1 (splitInfoToken tok).2
        dp.1 alleles)) = Except.ok d' := h
  cases hcl : chainLoop (splitInfoToken tok).1 (splitInfoToken tok).2 alleles
      procs d false with
  | error e => rw [hcl, exc_bind_error] at h1; exact Except.noConfusion h1
  | ok dp =>
    obtain ⟨d₁, pr⟩ := dp
    rw [hcl, exc_bind_ok] at h1
    obtain ⟨hpr, hpres, hwrites, hid⟩ :=
      chainLoop_spec (splitInfoToken tok).1 (splitInfoToken tok).2 alleles
        procs d false d₁ pr hcl
    rw [Bool.false_or] at hpr
    have h3 : (if pr then pure d₁
        else nativeProcess meta (splitInfoToken tok).1 (splitInfoToken tok).2
          d₁ alleles) = Except.ok d' := h1
    cases hprb : pr with
    | true =>
      rw [hprb, if_pos rfl] at h3
      have hde : d₁ = d' := Except.ok.inj h3
      subst hde
      have hacc : chainAcceptsKey procs (splitInfoToken tok).1 = true := by
        rw [← hpr, hprb]
      constructor
      · intro K hK
        have hALLpres : dictGet2? d₁ "ALL" K = dictGet2? d "ALL" K :=
          hpres "ALL" K (fun hc => hall hc.2)
        apply hinv.1 K
        unfold hasKeyB at hK ⊢
        rw [← hALLpres]
        exact hK
      · intro K a ha hK
        by_cases hKk : K = (splitInfoToken tok).1
        · subst hKk
          refine ⟨hacc, fun a' ha' => ?_⟩
          unfold hasKeyB
          exact hwrites hacc a' ha'
        · have heq : dictGet2? d₁ a K = dictGet2? d a K :=
            hpres a K (fun hc => hKk hc.1)
          have hold : hasKeyB d a K = true := by
            unfold hasKeyB at hK ⊢
            rw [← heq]
            exact hK
          obtain ⟨ha1, ha2⟩ := hinv.2 K a ha hold
          refine ⟨ha1, fun a' ha' => ?_⟩
          have heq' : dictGet2? d₁ a' K = dictGet2? d a' K :=
            hpres a' K (fun hc => hKk hc.1)
          unfold hasKeyB
          rw [heq']
          exact ha2 a' ha'
    | false =>
      rw [hprb, if_neg (by simp)] at h3
      have hacc : chainAcceptsKey procs (splitInfoToken tok).1 = false := by
        rw [← hpr, hprb]
      have hdd : d₁ = d := hid hacc
      subst hdd
      obtain ⟨nw1, nw2⟩ :=
        nativeProcess_writes meta (splitInfoToken tok).1 (splitInfoToken tok).2
          d₁ d' alleles h3
      constructor
      · intro K hK
        by_cases hKk : K = (splitInfoToken tok).1
        · subst hKk
          exact hacc
        · have heq : dictGet2? d' "ALL" K = dictGet2? d₁ "ALL" K :=
            nw2 "ALL" K (fun hc => hKk hc.2)
          apply hinv.1 K
          unfold hasKeyB at hK ⊢
          rw [← heq]
          exact hK
      · intro K a ha hK
        have hane : a ≠ "ALL" := fun hc => hall (hc ▸ ha)
        have heq : dictGet2? d' a K = dictGet2? d₁ a K :=
          nw2 a K (fun hc => hane hc.1)
        have hold : hasKeyB d₁ a K = true := by
          unfold hasKeyB at hK ⊢
          rw [← heq]
          exact hK
        obtain ⟨ha1, ha2⟩ := hinv.2 K a ha hold
        refine ⟨ha1, fun a' ha' => ?_⟩
        have hane' : a' ≠ "ALL" := fun hc => hall (hc ▸ ha')
        have heq' : dictGet2? d' a' K = dictGet2? d₁ a' K :=
          nw2 a' K (fun hc => hane' hc.1)
        unfold hasKeyB
        rw [heq']
        exact ha2 a' ha'

theorem mkInfoData_bucket_empty :
    ∀ (alleles : List String) (a : String) (b : Bucket),
      dictGet? (mkInfoData alleles) a = some b → b = [] := by
  have hstep : ∀ (l : List String) (acc : InfoData),
      (∀ a b, dictGet? acc a = some b → b = []) →
      (∀ a b, dictGet? (l.foldl (fun d x => dictSet d x []) acc) a = some b →
        b = []) := by
    intro l
    induction l with
    | nil => intro acc hacc; exact hacc
    | cons x xs ih =>
      intro acc hacc
      apply ih
      intro a b hb
      by_cases hax : a = x
      · subst hax
        rw [dictGet?_set_self] at hb
        cases hb
        rfl
      · rw [dictGet?_set_ne _ _ _ _ hax] at hb
        exact hacc a b hb
  intro alleles a b hb
  unfold mkInfoData at hb
  by_cases hA : a = "ALL"
  · subst hA
    rw [dictGet?_set_self] at hb
    cases hb
    rfl
  · rw [dictGet?_set_ne _ _ _ _ hA] at hb
    exact hstep alleles [] (fun a b hb => Option.noConfusion hb) a b hb

theorem mkInfoData_inv (procs : List Processor) (alleles : List String) :
    infoInv procs alleles (mkInfoData alleles) := by
  have hempty : ∀ a K, hasKeyB (mkInfoData alleles) a K = false := by
    intro a K
    unfold hasKeyB dictGet2?
    cases hg : dictGet? (mkInfoData alleles) a with
    | none => rfl
    | some b =>
      rw [mkInfoData_bucket_empty alleles a b hg]
      rfl
  constructor
  · intro K hK
    rw [hempty "ALL" K] at hK
    exact Bool.noConfusion hK
  · intro K a _ hK
    rw [hempty a K] at hK
    exact Bool.noConfusion hK

theorem infoFieldsLoop_inv (procs : List Processor) (meta : HeaderMeta)
    (alleles : List String) (hall : "ALL" ∉ alleles) :
    ∀ (toks : List String) (d : InfoData), infoInv procs alleles d →
      ∀ d', infoFieldsLoop procs meta alleles toks d = .ok d' →
        infoInv procs alleles d' := by
  intro toks
  induction toks with
  | nil =>
    intro d hinv d' h
    cases h
    exact hinv
  | cons t rest ih =>
    intro d hinv d' h
    unfold infoFieldsLoop at h
    cases hcs : chainStep procs meta alleles d t with
    | error e => rw [hcs, exc_bind_error] at h; exact Except.noConfusion h
    | ok d₁ =>
      rw [hcs, exc_bind_ok] at h
      exact ih d₁ (chainStep_inv procs meta alleles d t d₁ hall hcs hinv) d' h

/-- Claim C6: for every record decoded with the built-in processors, every
INFO key is stored either under *every* allele key and not under `'ALL'`, or
under `'ALL'` only — never a mix.  (`hall` excludes the degenerate record
whose ALT list contains the reserved identifier `ALL` itself.) -/
theorem c6_info_value_per_allele_or_ALL_never_mixed (procs : List Processor)
    (meta : HeaderMeta) (alleles : List String) (infoStr : String)
    (d : InfoData)
    (hall : "ALL" ∉ alleles)
    (h : processInfoFields procs meta alleles infoStr = .ok d) :
    ∀ K, (∃ a ∈ alleles, hasKeyB d a K = true) →
      (∀ a ∈ alleles, hasKeyB d a K = true) ∧ hasKeyB d "ALL" K = false := by
  have hinv := infoFieldsLoop_inv procs meta alleles hall (pySplit infoStr ";")
    (mkInfoData alleles) (mkInfoData_inv procs alleles) d h
  intro K hex
  obtain ⟨a, ha, hk⟩ := hex
  obtain ⟨hacc, hcompl⟩ := hinv.2 K a ha hk
  refine ⟨hcompl, ?_⟩
  cases hAll : hasKeyB d "ALL" K with
  | false => rfl
  | true =>
    rw [hinv.1 K hAll] at hacc
    exact Bool.noConfusion hacc

/-- Witness for C6: the token stream `AC=1;DP=5` over one ALT allele — `AC`
(CSV-allele processor) lands in the allele bucket only, `DP` (fallback) under
`'ALL'` only. -/
theorem c6_info_value_per_allele_or_ALL_never_mixed_witness :
    (∀ a ∈ ["G"],
      hasKeyB [("G", [("AC", Obj.i 1)]), ("ALL", [("DP", Obj.i 5)])] a "AC"
        = true) ∧
    hasKeyB [("G", [("AC", Obj.i 1)]), ("ALL", [("DP", Obj.i 5)])] "ALL" "AC"
      = false :=
  c6_info_value_per_allele_or_ALL_never_mixed [Processor.csvAllele]
    [("INFO", MetaEntry.many
      [.parsed [("ID", "DP"), ("Number", "1"), ("Type", "Integer")],
       .parsed [("ID", "NS"), ("Number", "1"), ("Type", "Integer")]])]
    ["G"] "AC=1;DP=5"
    [("G", [("AC", Obj.i 1)]), ("ALL", [("DP", Obj.i 5)])]
    (by decide) rfl "AC" ⟨"G", by decide, rfl⟩

/-! ## Claim C1 -/

/-- Claim C1: the spec's end-to-end scenario — a header declaring exactly the
INFO entry `DP` (Number=1, Type=Integer) and FORMAT entry `GQ` with one sample
column `S` — should decode the canonical data line to `POS = 14370`,
`INFO['ALL']['DP'] = 14`, `SAMPLES['S'] = {GT: "0|0", GQ: 48}`.  The code
does not: with exactly one declared INFO line, the header's singleton
collapse turns `meta['INFO']` into a bare dict, and `getConvertFunction`'s
scan `(m for m in meta['INFO'] if m['ID'] == key)` then iterates that dict's
string keys, so `m['ID']` raises `TypeError` and the whole record fails to
decode.  Adding any second INFO declaration (here `NS`) keeps `meta['INFO']`
a list and produces exactly the record the claim states. -/
theorem c1_single_info_decl_header_fails_with_typeError :
    vcfDecodeLine
        ["##INFO=<ID=DP,Number=1,Type=Integer,Description=\"Total Depth\">",
         "##FORMAT=<ID=GQ,Number=1,Type=Integer,Description=\"Genotype Quality\">",
         "#CHROM\tPOS\tID\tREF\tALT\tQUAL\tFILTER\tINFO\tFORMAT\tS"]
        "20\t14370\trs6054257\tG\tA\t29\tPASS\tDP=14\tGT:GQ\t0|0:48"
      = .error .typeError ∧
    vcfDecodeLine
        ["##INFO=<ID=DP,Number=1,Type=Integer,Description=\"Total Depth\">",
         "##INFO=<ID=NS,Number=1,Type=Integer,Description=\"Number of Samples\">",
         "##FORMAT=<ID=GQ,Number=1,Type=Integer,Description=\"Genotype Quality\">",
         "#CHROM\tPOS\tID\tREF\tALT\tQUAL\tFILTER\tINFO\tFORMAT\tS"]
        "20\t14370\trs6054257\tG\tA\t29\tPASS\tDP=14\tGT:GQ\t0|0:48"
      = .ok
        [("CHROM", .s "20"), ("POS", .i 14370), ("ID", .s "rs6054257"),
         ("REF", .s "G"), ("ALT", .list [.s "A"]), ("QUAL", .i 29),
         ("FILTER", .s "PASS"),
         ("INFO", .dict [("A", .dict []), ("ALL", .dict [("DP", .i 14)])]),
         ("SAMPLES", .dict [("S", .dict [("GT", .s "0|0"), ("GQ", .i 48)])])] :=
  ⟨rfl, rfl⟩

/-! ## Claim C2 -/

/-- Claim C2: under the permissive policy (`throw_exceptions=False`) a stream
of 3 data lines with a malformed line 2 is claimed to yield exactly 2 decoded
records and never a stale record.  The code's `except` branch lacks a
`continue`: after writing the warning it still executes `yield data`, so the
failed line re-yields the previous line's record — the run yields 3 items,
the 2nd a stale duplicate of the 1st.  The final conjunct shows line 2 indeed
fails to decode on its own (`KeyError` on the missing `ALT` column). -/
theorem c2_permissive_mode_reyields_stale_record :
    dataIter [Processor.csvAllele] []
        ["CHROM", "POS", "ID", "REF", "ALT", "QUAL", "FILTER", "INFO"] []
        false false
        ["#CHROM\tPOS\tID\tREF\tALT\tQUAL\tFILTER\tINFO",
         "1\t100\t.\tA\tC\t50\tPASS\tDB",
         "MALFORMED",
         "1\t300\t.\tG\tT\t60\tPASS\tDB"]
      = .ok
        ([.plain
            [("CHROM", .s "1"), ("POS", .i 100), ("ID", .s "."), ("REF", .s "A"),
             ("ALT", .list [.s "C"]), ("QUAL", .i 50), ("FILTER", .s "PASS"),
             ("INFO", .dict [("C", .dict []), ("ALL", .dict [("DB", .b true)])])],
          .plain
            [("CHROM", .s "1"), ("POS", .i 100), ("ID", .s "."), ("REF", .s "A"),
             ("ALT", .list [.s "C"]), ("QUAL", .i 50), ("FILTER", .s "PASS"),
             ("INFO", .dict [("C", .dict []), ("ALL", .dict [("DB", .b true)])])],
          .plain
            [("CHROM", .s "1"), ("POS", .i 300), ("ID", .s "."), ("REF", .s "G"),
             ("ALT", .list [.s "T"]), ("QUAL", .i 60), ("FILTER", .s "PASS"),
             ("INFO", .dict [("T", .dict []), ("ALL", .dict [("DB", .b true)])])]],
         ["WARNING: Line 2 failed to parse: \n MALFORMED"]) ∧
    parseData [Processor.csvAllele] []
        ["CHROM", "POS", "ID", "REF", "ALT", "QUAL", "FILTER", "INFO"] []
        "MALFORMED"
      = .error .keyError :=
  ⟨rfl, rfl⟩

end VCF
